import Mathlib

/-!
Verification of the command-bot planning core (`bots/command_bot5.py`).

The development shallowly embeds the data model and operations of the bot:
the 8-connected BFS navigator (`bfs_to_adjacent`), the tile-search helpers,
the command framework (internal state machines, `execute`, `is_complete`,
`is_stuck`), the recipe planner (`build_commands_for_order`), the order
selector and the executor / recovery loop (`BotPlayer.play_turn`).

Python dicts returned by the external `RobotController` are modelled as
structures; the controller's mid-call re-reads (`get_bot_state` after an
action request) are modelled by an `Oracle` argument that is universally
quantified in the theorems, because the external engine may silently refuse
any action.
-/

set_option maxHeartbeats 1000000

namespace CommandBot

/-- Grid position `(x, y)`, as used throughout the bot. -/
abbrev Pos := Int × Int

/-- A food item as observed on the map or in a pan:
`food_name`, `chopped`, `cooked_stage`. -/
structure Food where
  food_name : String
  chopped : Bool
  cooked_stage : Nat
deriving DecidableEq, Repr

/-- An item occupying a tile: `Food`, `Plate` (with contained food and dirty
flag) or `Pan` (with optional contained food), matching the engine classes
the bot inspects via `item.__class__.__name__`. -/
inductive Item where
  | food (f : Food)
  | plate (foods : List Food) (dirty : Bool)
  | pan (contents : Option Food)
deriving DecidableEq, Repr

/-- Station / tile types the bot searches for by `tile_name`. -/
inductive TileName where
  | SHOP | COUNTER | COOKER | SUBMIT | TRASH | BOX | FLOOR | WALL
deriving DecidableEq, Repr

/-- One map tile: its `tile_name`, walkability and optional occupant item. -/
structure Tile where
  tile_name : TileName
  is_walkable : Bool
  item : Option Item
deriving DecidableEq, Repr

/-- The default tile used for out-of-range accesses (never reached by the
embedded code, which bounds-checks first, mirroring the Python source). -/
def defaultTile : Tile := ⟨TileName.WALL, false, none⟩

/-- The map: `tiles` is indexed `tiles[x][y]` as in the source. -/
structure GameMap where
  width : Nat
  height : Nat
  tiles : List (List Tile)
deriving DecidableEq, Repr

/-- `m.tiles[x][y]` with a default for out-of-range indices. -/
def GameMap.tileAt (m : GameMap) (x y : Int) : Tile :=
  (m.tiles.getD x.toNat []).getD y.toNat defaultTile

/-- `0 <= x < width and 0 <= y < height`. -/
def inBounds (m : GameMap) (p : Pos) : Bool :=
  0 ≤ p.1 && p.1 < (m.width : Int) && 0 ≤ p.2 && p.2 < (m.height : Int)

/-- Chebyshev distance `max(|x1-x2|, |y1-y2|)`. -/
def chebDist (p q : Pos) : Nat :=
  max (p.1 - q.1).natAbs (p.2 - q.2).natAbs

/-- The adjacency test used everywhere in the bot:
`max(abs(sx-gx), abs(sy-gy)) <= 1`. -/
def chebAdjacent (p g : Pos) : Bool :=
  chebDist p g ≤ 1

/-- The eight neighbour directions in the enumeration order of the source
(`for dx in [-1,0,1]: for dy in [-1,0,1]`, skipping `(0,0)`). -/
def dirs : List (Int × Int) :=
  [(-1,-1),(-1,0),(-1,1),(0,-1),(0,1),(1,-1),(1,0),(1,1)]

/-- One BFS queue entry: a position together with the list of moves that
reached it from the start. -/
abbrev BfsEntry := Pos × List (Int × Int)

/-- The neighbour-admission test of the BFS loop body, for a cell `n` that is
not yet visited: in bounds, not occupied by another bot (the start cell is
exempt), and walkable. -/
def validStepCell (m : GameMap) (occupied : List Pos) (start : Pos) (n : Pos) : Bool :=
  inBounds m n && !(decide (n ∈ occupied) && !(decide (n = start))) &&
    (m.tileAt n.1 n.2).is_walkable

/-- The inner double loop of `bfs_to_adjacent`: explore the directions `ds`
from `(x, y)` (whose path from the start is `path`), appending admissible
unvisited neighbours to the queue and marking them visited. -/
def bfsExpand (m : GameMap) (occupied : List Pos) (start : Pos)
    (x y : Int) (path : List (Int × Int)) :
    List (Int × Int) → List BfsEntry × List Pos → List BfsEntry × List Pos
  | [], acc => acc
  | d :: ds, (q, visited) =>
    let n : Pos := (x + d.1, y + d.2)
    if n ∈ visited then
      bfsExpand m occupied start x y path ds (q, visited)
    else if !inBounds m n then
      bfsExpand m occupied start x y path ds (q, visited)
    else if n ∈ occupied ∧ n ≠ start then
      bfsExpand m occupied start x y path ds (q, visited)
    else if !(m.tileAt n.1 n.2).is_walkable then
      bfsExpand m occupied start x y path ds (q, visited)
    else
      bfsExpand m occupied start x y path ds (q ++ [(n, path ++ [d])], visited ++ [n])

/-- The `while queue:` loop of `bfs_to_adjacent`, with explicit fuel.  The
fuel passed by `bfs_to_adjacent` always suffices for the loop to run to
exhaustion; `none` on fuel 0 is unreachable from the wrapper. -/
def bfsLoop (m : GameMap) (occupied : List Pos) (start goal : Pos) :
    Nat → List BfsEntry → List Pos → Option (Int × Int)
  | 0, _, _ => none
  | _ + 1, [], _ => none
  | fuel + 1, (p, path) :: rest, visited =>
    if chebAdjacent p goal then path.head?
    else
      let acc := bfsExpand m occupied start p.1 p.2 path dirs (rest, visited)
      bfsLoop m occupied start goal fuel acc.1 acc.2

/-- `bfs_to_adjacent(controller, start, goal)`: BFS pathfinding returning the
next move `(dx, dy)` toward a cell Chebyshev-adjacent to `goal`, or `none`
when already adjacent or unreachable.  `occupied` is the set of cells of the
team's bots, computed by the source from the controller. -/
def bfs_to_adjacent (m : GameMap) (occupied : List Pos) (start goal : Pos) :
    Option (Int × Int) :=
  if chebAdjacent start goal then none
  else
    bfsLoop m occupied start goal (m.width * m.height + 1) [(start, [])] [start]

/-- Validity of a walk: each move is one of the eight directions and lands on
an in-bounds, walkable cell that is not occupied by another bot (with the
start cell exempt from the occupancy test, as in the BFS). -/
def pathOk (m : GameMap) (occupied : List Pos) (start : Pos) :
    Pos → List (Int × Int) → Pos → Bool
  | p, [], q => decide (p = q)
  | p, d :: ds, q =>
    decide (d ∈ dirs) && validStepCell m occupied start (p.1 + d.1, p.2 + d.2) &&
      pathOk m occupied start (p.1 + d.1, p.2 + d.2) ds q

/-- The successive cells visited by a walk, excluding the starting cell. -/
def pathCells : Pos → List (Int × Int) → List Pos
  | _, [] => []
  | p, d :: ds => (p.1 + d.1, p.2 + d.2) :: pathCells (p.1 + d.1, p.2 + d.2) ds

/-- A cell Chebyshev-adjacent to `goal` is reachable from `start` by a valid
walk. -/
def reachableAdj (m : GameMap) (occupied : List Pos) (start goal : Pos) : Prop :=
  ∃ path e, pathOk m occupied start start path e = true ∧ chebAdjacent e goal = true

/-- All in-bounds positions of the map. -/
def allCells (m : GameMap) : List Pos :=
  ((List.range m.width).map fun x =>
    (List.range m.height).map fun y => (Int.ofNat x, Int.ofNat y)).flatten

/-- Minimum of a list of naturals, `none` on the empty list. -/
def listMinN : List Nat → Option Nat
  | [] => none
  | n :: ns =>
    match listMinN ns with
    | none => some n
    | some k => some (min n k)

/-- The Chebyshev distance from `p` to the nearest in-bounds cell that is
Chebyshev-adjacent to `g` (the spec's "nearest cell adjacent to the goal"). -/
def minAdjChebDist (m : GameMap) (p g : Pos) : Option Nat :=
  listMinN (((allCells m).filter fun c => chebAdjacent c g).map fun c => chebDist p c)

/-- `find_tile`: first tile of the given type, scanning `x` outer, `y` inner. -/
def find_tile (m : GameMap) (name : TileName) : Option Pos :=
  (allCells m).find? fun c => decide ((m.tileAt c.1 c.2).tile_name = name)

/-- `find_empty_tile`: first tile of the given type with no item on it. -/
def find_empty_tile (m : GameMap) (name : TileName) : Option Pos :=
  (allCells m).find? fun c =>
    decide ((m.tileAt c.1 c.2).tile_name = name) && (m.tileAt c.1 c.2).item.isNone

/-- `find_item_on_tile`: first tile of the given type whose item passes the check. -/
def find_item_on_tile (m : GameMap) (name : TileName) (check : Item → Bool) : Option Pos :=
  (allCells m).find? fun c =>
    decide ((m.tileAt c.1 c.2).tile_name = name) &&
      (match (m.tileAt c.1 c.2).item with
       | some it => check it
       | none => false)

/-- `find_closest_tile`: the tile of the given type with minimal Chebyshev
distance to `from_pos`; scan order breaks ties (strict `<` keeps the first). -/
def find_closest_tile (m : GameMap) (name : TileName) (from_pos : Pos) : Option Pos :=
  (allCells m).foldl
    (fun best c =>
      if (m.tileAt c.1 c.2).tile_name = name then
        match best with
        | none => some c
        | some b => if chebDist c from_pos < chebDist b from_pos then some c else some b
      else best)
    none

/-- `find_closest_empty_tile`: closest tile of the given type with no item. -/
def find_closest_empty_tile (m : GameMap) (name : TileName) (from_pos : Pos) : Option Pos :=
  (allCells m).foldl
    (fun best c =>
      if (m.tileAt c.1 c.2).tile_name = name ∧ (m.tileAt c.1 c.2).item = none then
        match best with
        | none => some c
        | some b => if chebDist c from_pos < chebDist b from_pos then some c else some b
      else best)
    none

/-- One member of the `FoodType` enum of `game_constants` (external to the
repository): its `name`, `can_chop`, `can_cook` and `buy_cost`.  The whole
development is parametric in the food table. -/
structure FoodType where
  name : String
  can_chop : Bool
  can_cook : Bool
  buy_cost : Int
deriving DecidableEq, Repr

/-- The external game constants the bot reads: the `FoodType` members and
`ShopCosts.PLATE.buy_cost`. -/
structure GameConstants where
  foodTypes : List FoodType
  plateCost : Int
deriving DecidableEq, Repr

/-- `FoodType[name]` (enum lookup); `none` models the `KeyError` path. -/
def lookupFood (gc : GameConstants) (n : String) : Option FoodType :=
  gc.foodTypes.find? fun ft => decide (ft.name = n)

/-- `food_name in [ft.name for ft in FoodType]`. -/
def knownFood (gc : GameConstants) (n : String) : Bool :=
  gc.foodTypes.any fun ft => decide (ft.name = n)

/-- The bot's held item as the dict returned by `get_bot_state` presents it:
tagged `'Food'`, `'Plate'` or `'Pan'`. -/
inductive Holding where
  | food (f : Food)
  | plate (foods : List Food) (dirty : Bool)
  | pan (contents : Option Food)
deriving DecidableEq, Repr

/-- `holding.get('type')`. -/
def Holding.typeName : Holding → String
  | .food _ => "Food"
  | .plate _ _ => "Plate"
  | .pan _ => "Pan"

/-- `item.__class__.__name__`. -/
def Item.className : Item → String
  | .food _ => "Food"
  | .plate _ _ => "Plate"
  | .pan _ => "Pan"

/-- The dict returned by `get_bot_state`: position and held item. -/
structure BotState where
  x : Int
  y : Int
  holding : Option Holding
deriving DecidableEq, Repr

/-- One order as reported by `get_orders`: id, required item names, reward,
penalty, expiry turn (`none` models a missing `expires_turn`, which the bot
treats as infinity) and active flag. -/
structure Order where
  order_id : Nat
  required : List String
  reward : Int
  penalty : Int
  expires_turn : Option Int
  is_active : Bool
deriving DecidableEq, Repr

/-- A snapshot of what the controller reports at the start of a tick. -/
structure World where
  map : GameMap
  bots : List Pos
  botState : Option BotState
  money : Int
  orders : List Order
  turn : Nat
deriving DecidableEq, Repr

/-- Responses of the controller to the re-reads a command performs after
issuing its action this tick (the engine may silently refuse the action, so
these are unconstrained): `postBot` is the `get_bot_state` re-read and
`postTile` the re-read of the target tile's item. -/
structure Oracle where
  postBot : Option BotState
  postTile : Option Item
deriving DecidableEq, Repr

/-- The action requests a command can issue (at most one per tick). -/
inductive BuyItem where
  | foodItem (ft : FoodType)
  | plateItem
deriving DecidableEq, Repr

/-- One controller action request. -/
inductive Action where
  | move (dx dy : Int)
  | buy (it : BuyItem) (x y : Int)
  | place (x y : Int)
  | pickup (x y : Int)
  | chop (x y : Int)
  | take_from_pan (x y : Int)
  | add_food_to_plate (x y : Int)
  | submit (x y : Int)
  | trash (x y : Int)
deriving DecidableEq, Repr

/-- The fields of the `Command` base class: `turn_count`, `max_turns`,
`last_state` and `stuck_counter`. -/
structure CmdBase where
  turn_count : Nat
  max_turns : Nat
  last_state : Option String
  stuck_counter : Nat
deriving DecidableEq, Repr

/-- `Command.__init__` with the given `max_turns` (default 100). -/
def initBase (maxTurns : Nat) : CmdBase :=
  ⟨0, maxTurns, none, 0⟩

/-- `self.turn_count += 1` at the start of every `execute`. -/
def bumpTurn (b : CmdBase) : CmdBase :=
  { b with turn_count := b.turn_count + 1 }

/-- `Command.check_progress`: bump `stuck_counter` when the fingerprint is
unchanged, reset it otherwise, and remember the fingerprint. -/
def checkProgress (b : CmdBase) (cur : String) : CmdBase :=
  if b.last_state = some cur then
    { b with stuck_counter := b.stuck_counter + 1, last_state := some cur }
  else
    { b with stuck_counter := 0, last_state := some cur }

/-- Python's `str(bool)` as used in the fingerprint f-strings. -/
def fpBool (b : Bool) : String :=
  if b then "True" else "False"

/-- The fingerprint f-string `f"{bx}_{by}_{holding is not None}"`. -/
def fpPosHolding (x y : Int) (holdingSome : Bool) : String :=
  toString x ++ "_" ++ toString y ++ "_" ++ fpBool holdingSome

/-- `BuyIngredientCommand` instance fields. -/
structure BuyIngredientState where
  base : CmdBase
  food_type : FoodType
  shop_loc : Option Pos
  buy_attempted : Bool
deriving DecidableEq, Repr

/-- `BuyPlateCommand` instance fields. -/
structure BuyPlateState where
  base : CmdBase
  shop_loc : Option Pos
  buy_attempted : Bool
deriving DecidableEq, Repr

/-- Internal state-machine tag of `ChopIngredientCommand`. -/
inductive ChopPhase where
  | navigating | placing | chopping | picking_up | done
deriving DecidableEq, Repr

/-- The state string of a `ChopPhase` as used in its fingerprint. -/
def ChopPhase.str : ChopPhase → String
  | .navigating => "navigating"
  | .placing => "placing"
  | .chopping => "chopping"
  | .picking_up => "picking_up"
  | .done => "done"

/-- `ChopIngredientCommand` instance fields. -/
structure ChopIngredientState where
  base : CmdBase
  counter_loc : Option Pos
  state : ChopPhase
  retries : Nat
  max_retries : Nat
  failed : Bool
deriving DecidableEq, Repr

/-- Internal state-machine tag of `CookIngredientCommand`. -/
inductive CookPhase where
  | navigating | placing | cooking | picking_up | done
deriving DecidableEq, Repr

/-- `CookIngredientCommand` instance fields. -/
structure CookIngredientState where
  base : CmdBase
  cooker_loc : Option Pos
  state : CookPhase
deriving DecidableEq, Repr

/-- Internal state-machine tag of `StartCookingCommand`. -/
inductive StartCookPhase where
  | navigating | placing | done
deriving DecidableEq, Repr

/-- `StartCookingCommand` instance fields. -/
structure StartCookingState where
  base : CmdBase
  cooker_loc : Option Pos
  state : StartCookPhase
deriving DecidableEq, Repr

/-- Internal state-machine tag of `FinishCookingCommand`. -/
inductive FinishCookPhase where
  | waiting | navigating | picking_up | done
deriving DecidableEq, Repr

/-- `FinishCookingCommand` instance fields. -/
structure FinishCookingState where
  base : CmdBase
  food_type : FoodType
  cooker_loc : Option Pos
  state : FinishCookPhase
  food_burned : Bool
deriving DecidableEq, Repr

/-- `StoreInBoxCommand` instance fields. -/
structure StoreInBoxState where
  base : CmdBase
  box_loc : Option Pos
deriving DecidableEq, Repr

/-- `PlaceOnCounterCommand` instance fields. -/
structure PlaceOnCounterState where
  base : CmdBase
  counter_loc : Option Pos
  retries : Nat
  max_retries : Nat
deriving DecidableEq, Repr

/-- `PickupFromBoxCommand` instance fields. -/
structure PickupFromBoxState where
  base : CmdBase
  food_type : FoodType
  box_loc : Option Pos
deriving DecidableEq, Repr

/-- `PickupPlateFromCounterCommand` instance fields. -/
structure PickupPlateFromCounterState where
  base : CmdBase
  plate_loc : Option Pos
  retries : Nat
  max_retries : Nat
deriving DecidableEq, Repr

/-- `PlaceInBoxCommand` instance fields. -/
structure PlaceInBoxState where
  base : CmdBase
  box_loc : Option Pos
  retries : Nat
  max_retries : Nat
deriving DecidableEq, Repr

/-- `PickupPlateFromBoxCommand` instance fields. -/
structure PickupPlateFromBoxState where
  base : CmdBase
  box_loc : Option Pos
deriving DecidableEq, Repr

/-- Internal state-machine tag of `AddFoodToPlateCommand`. -/
inductive AddFoodPhase where
  | navigating | adding | done
deriving DecidableEq, Repr

/-- The state string of an `AddFoodPhase` as used in its fingerprint. -/
def AddFoodPhase.str : AddFoodPhase → String
  | .navigating => "navigating"
  | .adding => "adding"
  | .done => "done"

/-- `AddFoodToPlateCommand` instance fields. -/
structure AddFoodToPlateState where
  base : CmdBase
  food_type : FoodType
  food_loc : Option Pos
  state : AddFoodPhase
  initial_food_count : Option Nat
  retries : Nat
  max_retries : Nat
deriving DecidableEq, Repr

/-- `SubmitOrderCommand` instance fields. -/
structure SubmitOrderState where
  base : CmdBase
  order_id : Option Nat
  submit_loc : Option Pos
  submitted : Bool
deriving DecidableEq, Repr

/-- The closed sum of all command kinds, with their internal progress state. -/
inductive Cmd where
  | buyIngredient (s : BuyIngredientState)
  | buyPlate (s : BuyPlateState)
  | chopIngredient (s : ChopIngredientState)
  | cookIngredient (s : CookIngredientState)
  | startCooking (s : StartCookingState)
  | finishCooking (s : FinishCookingState)
  | storeInBox (s : StoreInBoxState)
  | placeOnCounter (s : PlaceOnCounterState)
  | pickupFromBox (s : PickupFromBoxState)
  | pickupPlateFromCounter (s : PickupPlateFromCounterState)
  | placeInBox (s : PlaceInBoxState)
  | pickupPlateFromBox (s : PickupPlateFromBoxState)
  | addFoodToPlate (s : AddFoodToPlateState)
  | submitOrder (s : SubmitOrderState)
deriving DecidableEq, Repr

/-- `BuyIngredientCommand(food_type)`: `max_turns = 30`. -/
def mkBuyIngredient (ft : FoodType) : Cmd :=
  .buyIngredient ⟨initBase 30, ft, none, false⟩

/-- `BuyPlateCommand()`: `max_turns = 30`. -/
def mkBuyPlate : Cmd :=
  .buyPlate ⟨initBase 30, none, false⟩

/-- `ChopIngredientCommand()`: `max_turns = 40`, `max_retries = 5`. -/
def mkChopIngredient : Cmd :=
  .chopIngredient ⟨initBase 40, none, .navigating, 0, 5, false⟩

/-- `CookIngredientCommand()`: `max_turns = 150`. -/
def mkCookIngredient : Cmd :=
  .cookIngredient ⟨initBase 150, none, .navigating⟩

/-- `StartCookingCommand()`: default `max_turns = 100`. -/
def mkStartCooking : Cmd :=
  .startCooking ⟨initBase 100, none, .navigating⟩

/-- `FinishCookingCommand(food_type)`: `max_turns = 80`. -/
def mkFinishCooking (ft : FoodType) : Cmd :=
  .finishCooking ⟨initBase 80, ft, none, .waiting, false⟩

/-- `StoreInBoxCommand()`: default `max_turns = 100`. -/
def mkStoreInBox : Cmd :=
  .storeInBox ⟨initBase 100, none⟩

/-- `PlaceOnCounterCommand()`: `max_turns = 40`, `max_retries = 5`. -/
def mkPlaceOnCounter : Cmd :=
  .placeOnCounter ⟨initBase 40, none, 0, 5⟩

/-- `PickupFromBoxCommand(food_type)`: default `max_turns = 100`. -/
def mkPickupFromBox (ft : FoodType) : Cmd :=
  .pickupFromBox ⟨initBase 100, ft, none⟩

/-- `PickupPlateFromCounterCommand()`: `max_turns = 40`, `max_retries = 3`. -/
def mkPickupPlateFromCounter : Cmd :=
  .pickupPlateFromCounter ⟨initBase 40, none, 0, 3⟩

/-- `PlaceInBoxCommand()`: default `max_turns = 100`, `max_retries = 5`. -/
def mkPlaceInBox : Cmd :=
  .placeInBox ⟨initBase 100, none, 0, 5⟩

/-- `PickupPlateFromBoxCommand()`: default `max_turns = 100`. -/
def mkPickupPlateFromBox : Cmd :=
  .pickupPlateFromBox ⟨initBase 100, none⟩

/-- `AddFoodToPlateCommand(food_type)`: `max_turns = 50`, `max_retries = 5`. -/
def mkAddFoodToPlate (ft : FoodType) : Cmd :=
  .addFoodToPlate ⟨initBase 50, ft, none, .navigating, none, 0, 5⟩

/-- `SubmitOrderCommand(order_id)`: default `max_turns = 100`. -/
def mkSubmitOrder (oid : Option Nat) : Cmd :=
  .submitOrder ⟨initBase 100, oid, none, false⟩

/-- The shared `Command` base fields of a command. -/
def Cmd.base : Cmd → CmdBase
  | .buyIngredient s => s.base
  | .buyPlate s => s.base
  | .chopIngredient s => s.base
  | .cookIngredient s => s.base
  | .startCooking s => s.base
  | .finishCooking s => s.base
  | .storeInBox s => s.base
  | .placeOnCounter s => s.base
  | .pickupFromBox s => s.base
  | .pickupPlateFromCounter s => s.base
  | .placeInBox s => s.base
  | .pickupPlateFromBox s => s.base
  | .addFoodToPlate s => s.base
  | .submitOrder s => s.base

/-- `hasattr(self, 'failed') and self.failed`: only `ChopIngredientCommand`
has a `failed` attribute. -/
def Cmd.failedFlag : Cmd → Bool
  | .chopIngredient s => s.failed
  | _ => false

/-- `Command.is_stuck`: over the tick ceiling, no progress for more than 20
consecutive ticks, or explicitly failed. -/
def Cmd.isStuck (c : Cmd) : Bool :=
  decide (c.base.turn_count > c.base.max_turns) ||
    decide (c.base.stuck_counter > 20) || c.failedFlag

/-- `is_complete` of every command kind, reading the observed bot state. -/
def Cmd.isComplete (c : Cmd) (bot : Option BotState) : Bool :=
  match c with
  | .buyIngredient s =>
    match bot with
    | none => false
    | some b =>
      match b.holding with
      | some (.food f) => decide (f.food_name = s.food_type.name)
      | _ => false
  | .buyPlate _ =>
    match bot with
    | none => false
    | some b =>
      match b.holding with
      | some (.plate _ _) => true
      | _ => false
  | .chopIngredient s =>
    if s.state ≠ ChopPhase.done then false
    else
      match bot with
      | none => false
      | some b =>
        match b.holding with
        | some (.food f) => f.chopped
        | _ => false
  | .cookIngredient s =>
    if s.state ≠ CookPhase.done then false
    else
      match bot with
      | none => false
      | some b =>
        match b.holding with
        | some (.food f) => decide (f.cooked_stage = 1)
        | _ => false
  | .startCooking s => decide (s.state = StartCookPhase.done)
  | .finishCooking s =>
    if s.state ≠ FinishCookPhase.done then false
    else if s.food_burned then true
    else
      match bot with
      | none => false
      | some b =>
        match b.holding with
        | some (.food f) => decide (f.cooked_stage = 1)
        | _ => false
  | .storeInBox _ =>
    match bot with
    | none => false
    | some b => b.holding.isNone
  | .placeOnCounter _ =>
    match bot with
    | none => false
    | some b => b.holding.isNone
  | .pickupFromBox _ =>
    -- `holding and hasattr(holding, 'food_name')`: `holding` is a dict, so
    -- `hasattr` is always False and the whole expression is always falsy.
    false
  | .pickupPlateFromCounter _ =>
    match bot with
    | none => false
    | some b =>
      match b.holding with
      | some (.plate _ _) => true
      | _ => false
  | .placeInBox _ =>
    match bot with
    | none => false
    | some b => b.holding.isNone
  | .pickupPlateFromBox _ =>
    match bot with
    | none => false
    | some b =>
      match b.holding with
      | some (.plate _ _) => true
      | _ => false
  | .addFoodToPlate s => decide (s.state = AddFoodPhase.done)
  | .submitOrder _ =>
    match bot with
    | none => false
    | some b => b.holding.isNone

/-- `BuyIngredientCommand.execute`. -/
def buyIngredientExecute (w : World) (s : BuyIngredientState) :
    BuyIngredientState × Option Action :=
  let s := { s with base := bumpTurn s.base }
  match w.botState with
  | none => (s, none)
  | some bot =>
    let bx := bot.x
    let byy := bot.y
    let holding := bot.holding
    let s := { s with base := checkProgress s.base (fpPosHolding bx byy holding.isSome) }
    if holding.isSome then (s, none)
    else
      match (match s.shop_loc with
             | some l => some l
             | none => find_tile w.map TileName.SHOP) with
      | none => (s, none)
      | some sl =>
        let s := { s with shop_loc := some sl }
        if chebAdjacent (bx, byy) sl then
          if !s.buy_attempted then
            if w.money < s.food_type.buy_cost then (s, none)
            else
              ({ s with buy_attempted := true },
               some (Action.buy (BuyItem.foodItem s.food_type) sl.1 sl.2))
          else (s, none)
        else
          match bfs_to_adjacent w.map w.bots (bx, byy) sl with
          | some d => (s, some (Action.move d.1 d.2))
          | none => (s, none)

/-- `BuyPlateCommand.execute`. -/
def buyPlateExecute (gc : GameConstants) (w : World) (s : BuyPlateState) :
    BuyPlateState × Option Action :=
  let s := { s with base := bumpTurn s.base }
  match w.botState with
  | none => (s, none)
  | some bot =>
    let bx := bot.x
    let byy := bot.y
    let holding := bot.holding
    let s := { s with base := checkProgress s.base (fpPosHolding bx byy holding.isSome) }
    if holding.isSome then (s, none)
    else
      match (match s.shop_loc with
             | some l => some l
             | none => find_tile w.map TileName.SHOP) with
      | none => (s, none)
      | some sl =>
        let s := { s with shop_loc := some sl }
        if chebAdjacent (bx, byy) sl then
          if !s.buy_attempted then
            if w.money < gc.plateCost then (s, none)
            else
              ({ s with buy_attempted := true },
               some (Action.buy BuyItem.plateItem sl.1 sl.2))
          else (s, none)
        else
          match bfs_to_adjacent w.map w.bots (bx, byy) sl with
          | some d => (s, some (Action.move d.1 d.2))
          | none => (s, none)

/-- `ChopIngredientCommand.execute`. -/
def chopIngredientExecute (w : World) (orc : Oracle) (s : ChopIngredientState) :
    ChopIngredientState × Option Action :=
  let s := { s with base := bumpTurn s.base }
  match w.botState with
  | none => (s, none)
  | some bot =>
    let bx := bot.x
    let byy := bot.y
    let holding := bot.holding
    let fp := s.state.str ++ "_" ++ toString bx ++ "_" ++ toString byy ++ "_" ++
      fpBool holding.isSome
    let s := { s with base := checkProgress s.base fp }
    if (s.state = ChopPhase.navigating ∨ s.state = ChopPhase.placing) ∧ holding = none then
      ({ s with state := .done, failed := true }, none)
    else
      match s.state with
      | .navigating =>
        match (if s.counter_loc = none ∨ s.retries > 0 then
                 find_closest_empty_tile w.map TileName.COUNTER (bx, byy)
               else s.counter_loc) with
        | none =>
          let s := { s with counter_loc := none, retries := s.retries + 1 }
          if s.retries > s.max_retries then
            ({ s with state := .done, failed := true }, none)
          else (s, none)
        | some cl =>
          let s := { s with counter_loc := some cl }
          if chebAdjacent (bx, byy) cl then
            if (w.map.tileAt cl.1 cl.2).item = none then
              ({ s with state := .placing }, none)
            else
              let s := { s with counter_loc := none, retries := s.retries + 1 }
              if s.retries > s.max_retries then
                ({ s with state := .done, failed := true }, none)
              else (s, none)
          else
            match bfs_to_adjacent w.map w.bots (bx, byy) cl with
            | some d => (s, some (Action.move d.1 d.2))
            | none => ({ s with counter_loc := none, retries := s.retries + 1 }, none)
      | .placing =>
        if holding.isSome then
          match s.counter_loc with
          | none => (s, none)  -- unreachable: Python would raise on unpacking None
          | some cl =>
            let act := some (Action.place cl.1 cl.2)
            match orc.postBot with
            | some nb =>
              if nb.holding = none then ({ s with state := .chopping }, act)
              else
                let s := { s with state := .navigating, counter_loc := none,
                                  retries := s.retries + 1 }
                if s.retries > s.max_retries then
                  ({ s with state := .done, failed := true }, act)
                else (s, act)
            | none =>
              let s := { s with state := .navigating, counter_loc := none,
                                retries := s.retries + 1 }
              if s.retries > s.max_retries then
                ({ s with state := .done, failed := true }, act)
              else (s, act)
        else (s, none)
      | .chopping =>
        if holding = none then
          match s.counter_loc with
          | none => (s, none)  -- unreachable: Python would raise on unpacking None
          | some cl =>
            match (w.map.tileAt cl.1 cl.2).item with
            | some (.food f) =>
              if f.chopped then ({ s with state := .picking_up }, none)
              else ({ s with state := .picking_up }, some (Action.chop cl.1 cl.2))
            | _ => ({ s with state := .done }, none)
        else ({ s with state := .placing }, none)
      | .picking_up =>
        match s.counter_loc with
        | none => (s, none)  -- unreachable: Python would raise on unpacking None
        | some cl =>
          match (w.map.tileAt cl.1 cl.2).item with
          | some (.food f) =>
            if f.chopped then
              let act := some (Action.pickup cl.1 cl.2)
              match orc.postBot with
              | some nb =>
                if nb.holding.isSome then ({ s with state := .done }, act)
                else
                  let s := { s with retries := s.retries + 1 }
                  if s.retries > s.max_retries then
                    ({ s with state := .done, failed := true }, act)
                  else (s, act)
              | none =>
                let s := { s with retries := s.retries + 1 }
                if s.retries > s.max_retries then
                  ({ s with state := .done, failed := true }, act)
                else (s, act)
            else ({ s with state := .done, failed := true }, none)
          | _ => ({ s with state := .done, failed := true }, none)
      | .done => (s, none)

/-- `CookIngredientCommand.execute`. -/
def cookIngredientExecute (w : World) (orc : Oracle) (s : CookIngredientState) :
    CookIngredientState × Option Action :=
  let s := { s with base := bumpTurn s.base }
  match w.botState with
  | none => (s, none)
  | some bot =>
    let bx := bot.x
    let byy := bot.y
    let holding := bot.holding
    match s.state with
    | .navigating =>
      match (match s.cooker_loc with
             | some l => some l
             | none => find_closest_tile w.map TileName.COOKER (bx, byy)) with
      | none => (s, none)
      | some cl =>
        let s := { s with cooker_loc := some cl }
        if chebAdjacent (bx, byy) cl then ({ s with state := .placing }, none)
        else
          match bfs_to_adjacent w.map w.bots (bx, byy) cl with
          | some d => (s, some (Action.move d.1 d.2))
          | none => (s, none)
    | .placing =>
      if holding.isSome then
        match s.cooker_loc with
        | none => (s, none)  -- unreachable: Python would raise on unpacking None
        | some cl =>
          let act := some (Action.place cl.1 cl.2)
          match orc.postBot with
          | some nb =>
            if nb.holding = none then
              match orc.postTile with
              | some (.pan _) => ({ s with state := .cooking }, act)
              | _ => ({ s with state := .navigating }, act)
            else ({ s with state := .navigating }, act)
          | none => ({ s with state := .navigating }, act)
      else (s, none)
    | .cooking =>
      match s.cooker_loc with
      | none => (s, none)  -- unreachable: Python would raise on unpacking None
      | some cl =>
        match (w.map.tileAt cl.1 cl.2).item with
        | some (.pan contents) =>
          match contents with
          | some f =>
            if f.cooked_stage = 1 then ({ s with state := .picking_up }, none)
            else if f.cooked_stage ≥ 2 then ({ s with state := .done }, none)
            else (s, none)
          | none => (s, none)
        | _ => ({ s with state := .done }, none)
    | .picking_up =>
      match s.cooker_loc with
      | none => (s, none)  -- unreachable: Python would raise on unpacking None
      | some cl =>
        match (w.map.tileAt cl.1 cl.2).item with
        | some (.pan contents) =>
          match contents with
          | some f =>
            if f.cooked_stage = 1 then
              let act := some (Action.take_from_pan cl.1 cl.2)
              match orc.postBot with
              | some nb =>
                if nb.holding.isSome then ({ s with state := .done }, act)
                else (s, act)
              | none => (s, act)
            else ({ s with state := .done }, none)
          | none => ({ s with state := .done }, none)
        | _ => ({ s with state := .done }, none)
    | .done => (s, none)

/-- `StartCookingCommand.execute`. -/
def startCookingExecute (w : World) (orc : Oracle) (s : StartCookingState) :
    StartCookingState × Option Action :=
  let s := { s with base := bumpTurn s.base }
  match w.botState with
  | none => (s, none)
  | some bot =>
    let bx := bot.x
    let byy := bot.y
    let holding := bot.holding
    match s.state with
    | .navigating =>
      match (match s.cooker_loc with
             | some l => some l
             | none => find_closest_tile w.map TileName.COOKER (bx, byy)) with
      | none => (s, none)
      | some cl =>
        let s := { s with cooker_loc := some cl }
        if chebAdjacent (bx, byy) cl then ({ s with state := .placing }, none)
        else
          match bfs_to_adjacent w.map w.bots (bx, byy) cl with
          | some d => (s, some (Action.move d.1 d.2))
          | none => (s, none)
    | .placing =>
      if holding.isSome then
        match s.cooker_loc with
        | none => (s, none)  -- unreachable: Python would raise on unpacking None
        | some cl =>
          let act := some (Action.place cl.1 cl.2)
          match orc.postBot with
          | some nb =>
            if nb.holding = none then
              match orc.postTile with
              | some (.pan _) => ({ s with state := .done }, act)
              | _ => ({ s with state := .done }, act)
            else ({ s with state := .navigating }, act)
          | none => ({ s with state := .navigating }, act)
      else (s, none)
    | .done => (s, none)

/-- `FinishCookingCommand._find_cooker_with_food`. -/
def findCookerWithFood (m : GameMap) (ft : FoodType) : Option Pos :=
  (allCells m).find? fun c =>
    decide ((m.tileAt c.1 c.2).tile_name = TileName.COOKER) &&
      (match (m.tileAt c.1 c.2).item with
       | some (.pan (some f)) => decide (f.food_name = ft.name)
       | _ => false)

/-- `FinishCookingCommand.execute`. -/
def finishCookingExecute (w : World) (orc : Oracle) (s : FinishCookingState) :
    FinishCookingState × Option Action :=
  let s := { s with base := bumpTurn s.base }
  match w.botState with
  | none => (s, none)
  | some bot =>
    let bx := bot.x
    let byy := bot.y
    match s.state with
    | .waiting =>
      match (match s.cooker_loc with
             | some l => some l
             | none => findCookerWithFood w.map s.food_type) with
      | none => (s, none)
      | some cl =>
        let s := { s with cooker_loc := some cl }
        match (w.map.tileAt cl.1 cl.2).item with
        | some (.pan contents) =>
          match contents with
          | some f =>
            if f.cooked_stage = 1 then ({ s with state := .navigating }, none)
            else if f.cooked_stage ≥ 2 then
              ({ s with food_burned := true, state := .done }, none)
            else (s, none)
          | none => (s, none)
        | _ => ({ s with food_burned := true, state := .done }, none)
    | .navigating =>
      match s.cooker_loc with
      | none => (s, none)  -- unreachable: Python would raise on unpacking None
      | some cl =>
        if chebAdjacent (bx, byy) cl then ({ s with state := .picking_up }, none)
        else
          match bfs_to_adjacent w.map w.bots (bx, byy) cl with
          | some d => (s, some (Action.move d.1 d.2))
          | none => (s, none)
    | .picking_up =>
      match s.cooker_loc with
      | none => (s, none)  -- unreachable: Python would raise on unpacking None
      | some cl =>
        match (w.map.tileAt cl.1 cl.2).item with
        | some (.pan contents) =>
          match contents with
          | some f =>
            if f.cooked_stage = 1 then
              let act := some (Action.take_from_pan cl.1 cl.2)
              match orc.postBot with
              | some nb =>
                if nb.holding.isSome then ({ s with state := .done }, act)
                else ({ s with state := .done }, act)
              | none => ({ s with state := .done }, act)
            else ({ s with food_burned := true, state := .done }, none)
          | none => ({ s with food_burned := true, state := .done }, none)
        | _ => ({ s with food_burned := true, state := .done }, none)
    | .done => (s, none)

/-- `StoreInBoxCommand.execute`. -/
def storeInBoxExecute (w : World) (s : StoreInBoxState) :
    StoreInBoxState × Option Action :=
  let s := { s with base := bumpTurn s.base }
  match w.botState with
  | none => (s, none)
  | some bot =>
    let bx := bot.x
    let byy := bot.y
    let holding := bot.holding
    match holding with
    | none => (s, none)
    | some h =>
      let holdingFoodName : Option String :=
        match h with
        | .food f => some f.food_name
        | _ => none
      match (match s.box_loc with
             | some l => some l
             | none =>
               (allCells w.map).find? fun c =>
                 decide ((w.map.tileAt c.1 c.2).tile_name = TileName.BOX) &&
                   (match (w.map.tileAt c.1 c.2).item with
                    | none => true
                    | some (.food f) => decide (holdingFoodName = some f.food_name)
                    | some _ => false)) with
      | none => (s, none)
      | some bl =>
        let s := { s with box_loc := some bl }
        if chebAdjacent (bx, byy) bl then (s, some (Action.place bl.1 bl.2))
        else
          match bfs_to_adjacent w.map w.bots (bx, byy) bl with
          | some d => (s, some (Action.move d.1 d.2))
          | none => (s, none)

/-- `PlaceOnCounterCommand.execute`. -/
def placeOnCounterExecute (w : World) (orc : Oracle) (s : PlaceOnCounterState) :
    PlaceOnCounterState × Option Action :=
  let s := { s with base := bumpTurn s.base }
  match w.botState with
  | none => (s, none)
  | some bot =>
    let bx := bot.x
    let byy := bot.y
    let holding := bot.holding
    let s := { s with base := checkProgress s.base (fpPosHolding bx byy holding.isSome) }
    if holding = none then (s, none)
    else
      match (match s.counter_loc with
             | some l => some l
             | none => find_closest_empty_tile w.map TileName.COUNTER (bx, byy)) with
      | none =>
        if s.retries < s.max_retries then ({ s with retries := s.retries + 1 }, none)
        else (s, none)
      | some cl =>
        let s := { s with counter_loc := some cl }
        if chebAdjacent (bx, byy) cl then
          if (w.map.tileAt cl.1 cl.2).item = none then
            let act := some (Action.place cl.1 cl.2)
            match orc.postBot with
            | some nb =>
              if nb.holding.isSome then
                ({ s with counter_loc := none, retries := s.retries + 1 }, act)
              else (s, act)
            | none => (s, act)
          else ({ s with counter_loc := none, retries := s.retries + 1 }, none)
        else
          match bfs_to_adjacent w.map w.bots (bx, byy) cl with
          | some d => (s, some (Action.move d.1 d.2))
          | none => ({ s with counter_loc := none, retries := s.retries + 1 }, none)

/-- `PickupFromBoxCommand.execute`. -/
def pickupFromBoxExecute (w : World) (s : PickupFromBoxState) :
    PickupFromBoxState × Option Action :=
  let s := { s with base := bumpTurn s.base }
  match w.botState with
  | none => (s, none)
  | some bot =>
    let bx := bot.x
    let byy := bot.y
    let holding := bot.holding
    if holding.isSome then (s, none)
    else
      match (match s.box_loc with
             | some l => some l
             | none =>
               find_item_on_tile w.map TileName.BOX fun it =>
                 match it with
                 | .food f => decide (f.food_name = s.food_type.name)
                 | _ => false) with
      | none => (s, none)
      | some bl =>
        let s := { s with box_loc := some bl }
        if chebAdjacent (bx, byy) bl then (s, some (Action.pickup bl.1 bl.2))
        else
          match bfs_to_adjacent w.map w.bots (bx, byy) bl with
          | some d => (s, some (Action.move d.1 d.2))
          | none => (s, none)

/-- The closest-`Plate`-on-`COUNTER` scan of `PickupPlateFromCounterCommand`. -/
def findClosestPlateOnCounter (m : GameMap) (from_pos : Pos) : Option Pos :=
  (allCells m).foldl
    (fun best c =>
      if decide ((m.tileAt c.1 c.2).tile_name = TileName.COUNTER) &&
          (match (m.tileAt c.1 c.2).item with
           | some (.plate _ _) => true
           | _ => false) then
        match best with
        | none => some c
        | some b => if chebDist c from_pos < chebDist b from_pos then some c else some b
      else best)
    none

/-- `PickupPlateFromCounterCommand.execute`. -/
def pickupPlateFromCounterExecute (w : World) (s : PickupPlateFromCounterState) :
    PickupPlateFromCounterState × Option Action :=
  let s := { s with base := bumpTurn s.base }
  match w.botState with
  | none => (s, none)
  | some bot =>
    let bx := bot.x
    let byy := bot.y
    let holding := bot.holding
    let s := { s with base := checkProgress s.base (fpPosHolding bx byy holding.isSome) }
    if holding.isSome then (s, none)
    else
      match (if s.plate_loc = none ∨ s.retries > 0 then
               findClosestPlateOnCounter w.map (bx, byy)
             else s.plate_loc) with
      | none => ({ s with plate_loc := none, retries := s.retries + 1 }, none)
      | some pl =>
        let s := { s with plate_loc := some pl }
        if chebAdjacent (bx, byy) pl then
          match (w.map.tileAt pl.1 pl.2).item with
          | some (.plate _ _) => (s, some (Action.pickup pl.1 pl.2))
          | _ => ({ s with plate_loc := none, retries := s.retries + 1 }, none)
        else
          match bfs_to_adjacent w.map w.bots (bx, byy) pl with
          | some d => (s, some (Action.move d.1 d.2))
          | none => ({ s with plate_loc := none, retries := s.retries + 1 }, none)

/-- `PlaceInBoxCommand.execute`. -/
def placeInBoxExecute (w : World) (orc : Oracle) (s : PlaceInBoxState) :
    PlaceInBoxState × Option Action :=
  let s := { s with base := bumpTurn s.base }
  match w.botState with
  | none => (s, none)
  | some bot =>
    let bx := bot.x
    let byy := bot.y
    let holding := bot.holding
    match holding with
    | none => (s, none)
    | some h =>
      match (match s.box_loc with
             | some l => some l
             | none =>
               (allCells w.map).find? fun c =>
                 decide ((w.map.tileAt c.1 c.2).tile_name = TileName.BOX) &&
                   (match (w.map.tileAt c.1 c.2).item with
                    | none => true
                    | some it => decide (it.className = h.typeName))) with
      | none =>
        if s.retries < s.max_retries then ({ s with retries := s.retries + 1 }, none)
        else (s, none)
      | some bl =>
        let s := { s with box_loc := some bl }
        if chebAdjacent (bx, byy) bl then
          let suitable :=
            match (w.map.tileAt bl.1 bl.2).item with
            | none => true
            | some it => decide (it.className = h.typeName)
          if suitable then
            let act := some (Action.place bl.1 bl.2)
            match orc.postBot with
            | some nb =>
              if nb.holding.isSome then
                ({ s with box_loc := none, retries := s.retries + 1 }, act)
              else (s, act)
            | none => (s, act)
          else ({ s with box_loc := none, retries := s.retries + 1 }, none)
        else
          match bfs_to_adjacent w.map w.bots (bx, byy) bl with
          | some d => (s, some (Action.move d.1 d.2))
          | none => (s, none)

/-- `PickupPlateFromBoxCommand.execute`. -/
def pickupPlateFromBoxExecute (w : World) (s : PickupPlateFromBoxState) :
    PickupPlateFromBoxState × Option Action :=
  let s := { s with base := bumpTurn s.base }
  match w.botState with
  | none => (s, none)
  | some bot =>
    let bx := bot.x
    let byy := bot.y
    let holding := bot.holding
    if holding.isSome then (s, none)
    else
      match (match s.box_loc with
             | some l => some l
             | none =>
               (allCells w.map).find? fun c =>
                 decide ((w.map.tileAt c.1 c.2).tile_name = TileName.BOX) &&
                   (match (w.map.tileAt c.1 c.2).item with
                    | some (.plate _ _) => true
                    | _ => false)) with
      | none => (s, none)
      | some bl =>
        let s := { s with box_loc := some bl }
        if chebAdjacent (bx, byy) bl then (s, some (Action.pickup bl.1 bl.2))
        else
          match bfs_to_adjacent w.map w.bots (bx, byy) bl with
          | some d => (s, some (Action.move d.1 d.2))
          | none => (s, none)

/-- The closest-matching-food-on-`COUNTER` scan of `AddFoodToPlateCommand`. -/
def findClosestFoodOnCounter (m : GameMap) (name : String) (from_pos : Pos) : Option Pos :=
  (allCells m).foldl
    (fun best c =>
      if decide ((m.tileAt c.1 c.2).tile_name = TileName.COUNTER) &&
          (match (m.tileAt c.1 c.2).item with
           | some (.food f) => decide (f.food_name = name)
           | _ => false) then
        match best with
        | none => some c
        | some b => if chebDist c from_pos < chebDist b from_pos then some c else some b
      else best)
    none

/-- `AddFoodToPlateCommand.execute`. -/
def addFoodToPlateExecute (w : World) (orc : Oracle) (s : AddFoodToPlateState) :
    AddFoodToPlateState × Option Action :=
  let s := { s with base := bumpTurn s.base }
  match w.botState with
  | none => (s, none)
  | some bot =>
    let bx := bot.x
    let byy := bot.y
    let holding := bot.holding
    let fp := s.state.str ++ "_" ++ toString bx ++ "_" ++ toString byy
    let s := { s with base := checkProgress s.base fp }
    match holding with
    | some (.plate plateFoods _) =>
      match s.state with
      | .navigating =>
        match (match s.food_loc with
               | some l => some l
               | none => findClosestFoodOnCounter w.map s.food_type.name (bx, byy)) with
        | none =>
          let s := { s with food_loc := none, retries := s.retries + 1 }
          if s.retries ≥ s.max_retries then ({ s with state := .done }, none)
          else (s, none)
        | some fl =>
          let s := { s with food_loc := some fl }
          if chebAdjacent (bx, byy) fl then
            match (w.map.tileAt fl.1 fl.2).item with
            | some (.food f) =>
              if f.food_name = s.food_type.name then
                ({ s with initial_food_count := some plateFoods.length,
                          state := .adding }, none)
              else ({ s with food_loc := none, retries := s.retries + 1 }, none)
            | _ => ({ s with food_loc := none, retries := s.retries + 1 }, none)
          else
            match bfs_to_adjacent w.map w.bots (bx, byy) fl with
            | some d => (s, some (Action.move d.1 d.2))
            | none => ({ s with food_loc := none, retries := s.retries + 1 }, none)
      | .adding =>
        match s.food_loc with
        | none => (s, none)  -- unreachable: Python would raise on unpacking None
        | some fl =>
          match (w.map.tileAt fl.1 fl.2).item with
          | some (.food f) =>
            if f.food_name = s.food_type.name then
              let act := some (Action.add_food_to_plate fl.1 fl.2)
              match orc.postBot with
              | some nb =>
                match nb.holding with
                | some (.plate newFoods _) =>
                  match s.initial_food_count with
                  | some k =>
                    if newFoods.length > k then ({ s with state := .done }, act)
                    else
                      let s := { s with state := .navigating, food_loc := none,
                                        retries := s.retries + 1 }
                      if s.retries ≥ s.max_retries then
                        ({ s with state := .done }, act)
                      else (s, act)
                  | none => (s, act)  -- unreachable: Python would raise comparing None
                | _ => ({ s with state := .done }, act)
              | none => (s, act)
            else
              let s := { s with state := .navigating, food_loc := none,
                                retries := s.retries + 1 }
              if s.retries ≥ s.max_retries then ({ s with state := .done }, none)
              else (s, none)
          | _ =>
            let s := { s with state := .navigating, food_loc := none,
                              retries := s.retries + 1 }
            if s.retries ≥ s.max_retries then ({ s with state := .done }, none)
            else (s, none)
      | .done => (s, none)
    | _ => ({ s with state := .done }, none)

/-- `SubmitOrderCommand.execute`. -/
def submitOrderExecute (w : World) (orc : Oracle) (s : SubmitOrderState) :
    SubmitOrderState × Option Action :=
  let s := { s with base := bumpTurn s.base }
  match w.botState with
  | none => (s, none)
  | some bot =>
    let bx := bot.x
    let byy := bot.y
    let holding := bot.holding
    match (match s.submit_loc with
           | some l => some l
           | none => find_tile w.map TileName.SUBMIT) with
    | none => (s, none)
    | some sl =>
      let s := { s with submit_loc := some sl }
      if chebAdjacent (bx, byy) sl then
        match holding with
        | some (.plate _ _) =>
          if !s.submitted then
            let act := some (Action.submit sl.1 sl.2)
            let s := { s with submitted := true }
            match orc.postBot with
            | some nb =>
              if nb.holding.isSome then ({ s with submitted := false }, act)
              else (s, act)
            | none => (s, act)
          else (s, none)
        | _ => (s, none)
      else
        match bfs_to_adjacent w.map w.bots (bx, byy) sl with
        | some d => (s, some (Action.move d.1 d.2))
        | none => (s, none)

/-- `execute` of every command kind. -/
def Cmd.execute (gc : GameConstants) (w : World) (orc : Oracle) :
    Cmd → Cmd × Option Action
  | .buyIngredient s =>
    let r := buyIngredientExecute w s
    (.buyIngredient r.1, r.2)
  | .buyPlate s =>
    let r := buyPlateExecute gc w s
    (.buyPlate r.1, r.2)
  | .chopIngredient s =>
    let r := chopIngredientExecute w orc s
    (.chopIngredient r.1, r.2)
  | .cookIngredient s =>
    let r := cookIngredientExecute w orc s
    (.cookIngredient r.1, r.2)
  | .startCooking s =>
    let r := startCookingExecute w orc s
    (.startCooking r.1, r.2)
  | .finishCooking s =>
    let r := finishCookingExecute w orc s
    (.finishCooking r.1, r.2)
  | .storeInBox s =>
    let r := storeInBoxExecute w s
    (.storeInBox r.1, r.2)
  | .placeOnCounter s =>
    let r := placeOnCounterExecute w orc s
    (.placeOnCounter r.1, r.2)
  | .pickupFromBox s =>
    let r := pickupFromBoxExecute w s
    (.pickupFromBox r.1, r.2)
  | .pickupPlateFromCounter s =>
    let r := pickupPlateFromCounterExecute w s
    (.pickupPlateFromCounter r.1, r.2)
  | .placeInBox s =>
    let r := placeInBoxExecute w orc s
    (.placeInBox r.1, r.2)
  | .pickupPlateFromBox s =>
    let r := pickupPlateFromBoxExecute w s
    (.pickupPlateFromBox r.1, r.2)
  | .addFoodToPlate s =>
    let r := addFoodToPlateExecute w orc s
    (.addFoodToPlate r.1, r.2)
  | .submitOrder s =>
    let r := submitOrderExecute w orc s
    (.submitOrder r.1, r.2)

/-- `RecipePlanner.needs_chopping`. -/
def needs_chopping (ft : FoodType) : Bool := ft.can_chop

/-- `RecipePlanner.needs_cooking`. -/
def needs_cooking (ft : FoodType) : Bool := ft.can_cook

/-- `RecipePlanner.count_tiles`. -/
def count_tiles (m : GameMap) (name : TileName) : Nat :=
  ((allCells m).filter fun c => decide ((m.tileAt c.1 c.2).tile_name = name)).length

/-- The `required_foods` parse loop: unknown names (`KeyError`) are skipped. -/
def requiredFoods (gc : GameConstants) (required : List String) : List FoodType :=
  required.filterMap (lookupFood gc)

/-- The `use_box_for_plate` detection: only with a controller, when the map
has exactly one `COUNTER` and at least one `BOX`. -/
def useBoxForPlate (cmap : Option GameMap) : Bool :=
  match cmap with
  | none => false
  | some m =>
    decide (count_tiles m TileName.COUNTER = 1) && decide (count_tiles m TileName.BOX ≥ 1)

/-- `add_ingredient_to_plate_sequence(food_type)`. -/
def addIngredientSeq (useBox : Bool) (ft : FoodType) : List Cmd :=
  [mkPlaceOnCounter] ++
    [if useBox then mkPickupPlateFromBox else mkPickupPlateFromCounter] ++
    [mkAddFoodToPlate ft] ++
    [if useBox then mkPlaceInBox else mkPlaceOnCounter]

/-- The parallelized-cooking body of `build_commands_for_order`. -/
def parallelBody (useBox : Bool) (first : FoodType)
    (restCook nonCook : List FoodType) : List Cmd :=
  [mkBuyIngredient first] ++
    (if needs_chopping first then [mkChopIngredient] else []) ++
    [mkStartCooking] ++
    (nonCook.map fun ft =>
      [mkBuyIngredient ft] ++
        (if needs_chopping ft then [mkChopIngredient] else []) ++
        addIngredientSeq useBox ft).flatten ++
    [mkFinishCooking first] ++ addIngredientSeq useBox first ++
    (restCook.map fun ft =>
      [mkBuyIngredient ft] ++
        (if needs_chopping ft then [mkChopIngredient] else []) ++
        [mkCookIngredient] ++ addIngredientSeq useBox ft).flatten

/-- The sequential body of `build_commands_for_order`. -/
def sequentialBody (useBox : Bool) (foods : List FoodType) : List Cmd :=
  (foods.map fun ft =>
    [mkBuyIngredient ft] ++
      (if needs_chopping ft then [mkChopIngredient] else []) ++
      (if needs_cooking ft then [mkCookIngredient] else []) ++
      addIngredientSeq useBox ft).flatten

/-- `RecipePlanner.build_commands_for_order(order, controller)`: `cmap` is
the controller's map (`none` models `controller = None`). -/
def build_commands_for_order (gc : GameConstants) (order : Order)
    (cmap : Option GameMap) : List Cmd :=
  let required_foods := requiredFoods gc order.required
  let cooking_foods := required_foods.filter needs_cooking
  let non_cooking_foods := required_foods.filter fun f => !needs_cooking f
  let useBox := useBoxForPlate cmap
  let body :=
    match cooking_foods with
    | first :: restCook =>
      if !useBox && non_cooking_foods.length ≤ 1 then
        parallelBody useBox first restCook non_cooking_foods
      else
        sequentialBody useBox required_foods
    | [] => sequentialBody useBox required_foods
  [mkBuyPlate, if useBox then mkPlaceInBox else mkPlaceOnCounter] ++ body ++
    [(if useBox then mkPickupPlateFromBox else mkPickupPlateFromCounter),
     mkSubmitOrder (some order.order_id)]

/-- Is this a `StartCookingCommand`? -/
def Cmd.isStartCookingCmd : Cmd → Bool
  | .startCooking _ => true
  | _ => false

/-- Is this a `FinishCookingCommand`? -/
def Cmd.isFinishCookingCmd : Cmd → Bool
  | .finishCooking _ => true
  | _ => false

/-- A compiled plan is interleaved when it starts a cook it finishes later;
strictly sequential plans contain neither a start-cooking nor a
finish-cooking command (each item is fully processed before the next by the
blocking `CookIngredientCommand`). -/
def interleavedPlan (cmds : List Cmd) : Bool :=
  cmds.any Cmd.isStartCookingCmd || cmds.any Cmd.isFinishCookingCmd

/-- `BotPlayer.has_accessible_tile_type`: some tile of the given type has a
walkable in-bounds neighbour and is BFS-reachable (or already adjacent). -/
def has_accessible_tile_type (initMap : GameMap) (w : World) (name : TileName)
    (from_pos : Pos) : Bool :=
  (allCells initMap).any fun c =>
    decide ((initMap.tileAt c.1 c.2).tile_name = name) &&
      (dirs.any fun d =>
        let a : Pos := (c.1 + d.1, c.2 + d.2)
        inBounds initMap a && (initMap.tileAt a.1 a.2).is_walkable &&
          ((bfs_to_adjacent w.map w.bots from_pos c).isSome || chebAdjacent from_pos c))

/-- The per-order metrics dict collected for candidate orders.  The float
`profit_per_turn = profit / estimated_turns` is not stored: comparisons on
it are modelled exactly by cross-multiplication (`estimated_turns >= 25 > 0`). -/
structure Candidate where
  order : Order
  remaining_turns : Option Int
  estimated_turns : Nat
  total_value : Int
  cost : Int
  profit : Int
deriving DecidableEq, Repr

/-- `expires_turn - current_turn`; `none` models the `float('inf')` default. -/
def remainingTurns (o : Order) (turn : Nat) : Option Int :=
  o.expires_turn.map fun e => e - (turn : Int)

/-- `remaining_turns < k` (false for infinity). -/
def remLtInt (r : Option Int) (k : Int) : Bool :=
  match r with
  | none => false
  | some n => decide (n < k)

/-- `remaining_turns < estimated_turns * 1.15` (false for infinity), the
exact-rational comparison written with integers: `20*n < 23*est`. -/
def remLt115 (r : Option Int) (est : Nat) : Bool :=
  match r with
  | none => false
  | some n => decide (20 * n < 23 * (est : Int))

/-- `has_cooking`: some required item (known to the food table) cooks. -/
def orderHasCooking (gc : GameConstants) (o : Order) : Bool :=
  o.required.any fun n =>
    match lookupFood gc n with
    | some ft => ft.can_cook
    | none => false

/-- `cooking_count`. -/
def cookingCount (gc : GameConstants) (o : Order) : Nat :=
  (o.required.filter fun n =>
    match lookupFood gc n with
    | some ft => ft.can_cook
    | none => false).length

/-- `chopping_count`. -/
def choppingCount (gc : GameConstants) (o : Order) : Nat :=
  (o.required.filter fun n =>
    match lookupFood gc n with
    | some ft => ft.can_chop
    | none => false).length

/-- The order selector's fixed tick-cost model (`estimated_turns`). -/
def estimatedTurns (gc : GameConstants) (o : Order) : Nat :=
  let num := o.required.length
  let cook := cookingCount gc o
  let chopc := choppingCount gc o
  let cookingTurns :=
    if cook > 0 then
      if num - cook ≤ 1 then (cook - 1) * 28 + 18 else cook * 28
    else 0
  25 + num * 10 + chopc * 7 + cookingTurns

/-- `ingredient_cost`: known ingredients' buy costs plus the plate cost. -/
def ingredientCost (gc : GameConstants) (o : Order) : Int :=
  (o.required.foldl
    (fun acc n =>
      match lookupFood gc n with
      | some ft => acc + ft.buy_cost
      | none => acc)
    0) + gc.plateCost

/-- The per-order feasibility/profitability evaluation of the selection loop;
`none` means the order is skipped and marked processed. -/
def orderCandidate (gc : GameConstants) (initMap : GameMap) (w : World)
    (botPos : Pos) (turn : Nat) (o : Order) : Option Candidate :=
  let rem := remainingTurns o turn
  let has_cooking := orderHasCooking gc o
  let minTurns : Int := if has_cooking then 50 else 10
  if remLtInt rem minTurns then none
  else
    let cook := cookingCount gc o
    let chopc := choppingCount gc o
    if cook > 0 && !has_accessible_tile_type initMap w TileName.COOKER botPos then none
    else if chopc > 0 && !has_accessible_tile_type initMap w TileName.COUNTER botPos then
      none
    else
      let est := estimatedTurns gc o
      if remLt115 rem est then none
      else
        let tv := o.reward + o.penalty
        let cost := ingredientCost gc o
        if cost ≥ tv then none
        else
          let profit := tv - cost
          some ⟨o, rem, est, tv, cost, profit⟩

/-- `self.processed_orders.add(oid)` (set semantics on a list). -/
def addProcessed (l : List Nat) (n : Nat) : List Nat :=
  if n ∈ l then l else l ++ [n]

/-- The candidate-collection loop: evaluates each active unprocessed order,
collecting candidates and marking rejected orders processed. -/
def collectCandidates (gc : GameConstants) (initMap : GameMap) (w : World)
    (botPos : Pos) (turn : Nat) :
    List Order → List Nat → List Candidate × List Nat
  | [], processed => ([], processed)
  | o :: os, processed =>
    if o.is_active && !(decide (o.order_id ∈ processed)) then
      match orderCandidate gc initMap w botPos turn o with
      | some c =>
        let r := collectCandidates gc initMap w botPos turn os processed
        (c :: r.1, r.2)
      | none =>
        collectCandidates gc initMap w botPos turn os (addProcessed processed o.order_id)
    else
      collectCandidates gc initMap w botPos turn os processed

/-- Insert `a` after every element that strictly precedes it; with a strict
"sorts before" relation this is the stable insertion step. -/
def stableInsert {α : Type} (sb : α → α → Bool) (a : α) : List α → List α
  | [] => [a]
  | b :: bs => if sb b a then b :: stableInsert sb a bs else a :: b :: bs

/-- Stable sort by a strict "sorts before" relation; a stable sort's output
is uniquely determined, so this matches Python's stable `list.sort`. -/
def stableSort {α : Type} (sb : α → α → Bool) : List α → List α
  | [] => []
  | x :: xs => stableInsert sb x (stableSort sb xs)

/-- `game_turns_remaining = 500 - current_turn < 200`. -/
def lateGame (turn : Nat) : Bool :=
  decide ((500 : Int) - (turn : Int) < 200)

/-- `remaining_turns >= estimated_turns * buffer` (true for infinity) with
the adaptive safety buffer in force at `turn` (1.30 late game, 1.15
otherwise), written as the exact integer comparison. -/
def remGeBuffer (r : Option Int) (est : Nat) (turn : Nat) : Bool :=
  match r with
  | none => true
  | some n =>
    if lateGame turn then decide (10 * n ≥ 13 * (est : Int))
    else decide (20 * n ≥ 23 * (est : Int))

/-- Strictly-precedes for the late-game key `(estimated_turns, -profit)`. -/
def sbLate (a b : Candidate) : Bool :=
  decide (a.estimated_turns < b.estimated_turns) ||
    (decide (a.estimated_turns = b.estimated_turns) && decide (b.profit < a.profit))

/-- Strictly-precedes for the early-game key (descending `profit_per_turn`,
compared exactly by cross-multiplication). -/
def sbEarly (a b : Candidate) : Bool :=
  decide (b.profit * (a.estimated_turns : Int) < a.profit * (b.estimated_turns : Int))

/-- The phase-dependent candidate sort. -/
def sortCandidates (turn : Nat) (cs : List Candidate) : List Candidate :=
  if lateGame turn then stableSort sbLate cs else stableSort sbEarly cs

/-- `best`: the first sorted candidate whose remaining turns meet the
adaptive buffer. -/
def chooseBest (turn : Nat) (cs : List Candidate) : Option Candidate :=
  (sortCandidates turn cs).find? fun c =>
    remGeBuffer c.remaining_turns c.estimated_turns turn

/-- The whole order-selection step of `play_turn`: the chosen candidate (if
any) and the updated processed-order set. -/
def selectOrder (gc : GameConstants) (initMap : GameMap) (w : World) (botPos : Pos)
    (processed : List Nat) : Option Candidate × List Nat :=
  let r := collectCandidates gc initMap w botPos w.turn w.orders processed
  if r.1.isEmpty then (none, r.2)
  else (chooseBest w.turn r.1, r.2)

/-- `BotPlayer` instance state (`__init__(self, map_copy)`). -/
structure PState where
  initMap : GameMap
  command_queue : List Cmd
  current_command_index : Nat
  processed_orders : List Nat
  current_order_id : Option Nat
  cleaning_workspace : Bool
  cleanup_turns : Nat
  max_cleanup_turns : Nat
deriving DecidableEq, Repr

/-- `BotPlayer.__init__`. -/
def mkBotPlayer (m : GameMap) : PState :=
  ⟨m, [], 0, [], none, false, 0, 20⟩

/-- The cleanup-mode scan: food on a counter or box first, then plates. -/
def findCleanupTarget (m : GameMap) : Option Pos :=
  let onCB := fun (c : Pos) =>
    decide ((m.tileAt c.1 c.2).tile_name = TileName.COUNTER) ||
      decide ((m.tileAt c.1 c.2).tile_name = TileName.BOX)
  match (allCells m).find? (fun c =>
      onCB c &&
        (match (m.tileAt c.1 c.2).item with
         | some (.food _) => true
         | _ => false)) with
  | some t => some t
  | none =>
    (allCells m).find? fun c =>
      onCB c &&
        (match (m.tileAt c.1 c.2).item with
         | some (.plate _ _) => true
         | _ => false)

/-- The "navigate to trash and trash the held item" route of cleanup mode;
exits cleanup when no trash tile exists. -/
def trashRouteCleanup (s : PState) (w : World) (bx byy : Int) :
    PState × Option Action :=
  match find_tile w.map TileName.TRASH with
  | some t =>
    if chebAdjacent (bx, byy) t then (s, some (Action.trash t.1 t.2))
    else
      match bfs_to_adjacent w.map w.bots (bx, byy) t with
      | some d => (s, some (Action.move d.1 d.2))
      | none => (s, none)
  | none => ({ s with cleaning_workspace := false }, none)

/-- One tick of cleanup mode (the `if self.cleaning_workspace:` block of
`play_turn`): bump the counter, exit after the ceiling, dispose of the held
item (placing clean empty plates, trashing everything else), then clear
food/plates left on counters and boxes. -/
def cleanupTick (s : PState) (w : World) : PState × Option Action :=
  let s := { s with cleanup_turns := s.cleanup_turns + 1 }
  if s.cleanup_turns > s.max_cleanup_turns then
    ({ s with cleaning_workspace := false, cleanup_turns := 0 }, none)
  else
    match w.botState with
    | none => (s, none)
    | some bot =>
      let bx := bot.x
      let byy := bot.y
      match bot.holding with
      | some h =>
        match h with
        | .plate foods dirty =>
          if foods.isEmpty && !dirty then
            match (match find_closest_empty_tile w.map TileName.COUNTER (bx, byy) with
                   | some t => some t
                   | none => find_closest_empty_tile w.map TileName.BOX (bx, byy)) with
            | some t =>
              if chebAdjacent (bx, byy) t then (s, some (Action.place t.1 t.2))
              else
                match bfs_to_adjacent w.map w.bots (bx, byy) t with
                | some d => (s, some (Action.move d.1 d.2))
                | none => (s, none)
            | none => ({ s with cleaning_workspace := false }, none)
          else trashRouteCleanup s w bx byy
        | _ => trashRouteCleanup s w bx byy
      | none =>
        match findCleanupTarget w.map with
        | some t =>
          if chebAdjacent (bx, byy) t then (s, some (Action.pickup t.1 t.2))
          else
            match bfs_to_adjacent w.map w.bots (bx, byy) t with
            | some d => (s, some (Action.move d.1 d.2))
            | none => (s, none)
        | none => ({ s with cleaning_workspace := false }, none)

/-- The "still holding something from a previous order" disposal block run
when the command queue is exhausted: place clean empty plates, trash dirty
or full plates and all other items. -/
def disposalTick (s : PState) (w : World) (bot : BotState) : PState × Option Action :=
  let bx := bot.x
  let byy := bot.y
  match bot.holding with
  | some (.plate foods dirty) =>
    if foods.isEmpty && !dirty then
      match (match find_closest_empty_tile w.map TileName.COUNTER (bx, byy) with
             | some t => some t
             | none => find_closest_empty_tile w.map TileName.BOX (bx, byy)) with
      | some t =>
        if chebAdjacent (bx, byy) t then (s, some (Action.place t.1 t.2))
        else
          match bfs_to_adjacent w.map w.bots (bx, byy) t with
          | some d => (s, some (Action.move d.1 d.2))
          | none => (s, none)
      | none => (s, none)
    else
      match find_tile w.map TileName.TRASH with
      | some t =>
        if chebAdjacent (bx, byy) t then (s, some (Action.trash t.1 t.2))
        else
          match bfs_to_adjacent w.map w.bots (bx, byy) t with
          | some d => (s, some (Action.move d.1 d.2))
          | none => (s, none)
      | none => (s, none)
  | some _ =>
    match find_tile w.map TileName.TRASH with
    | some t =>
      if chebAdjacent (bx, byy) t then (s, some (Action.trash t.1 t.2))
      else
        match bfs_to_adjacent w.map w.bots (bx, byy) t with
        | some d => (s, some (Action.move d.1 d.2))
        | none => (s, none)
    | none => (s, none)
  | none => (s, none)

/-- The command-stepping tail of `play_turn`: stuck check (aborting to
cleanup), execute, completion check (advancing and finishing the order). -/
def execPhase (gc : GameConstants) (s : PState) (w : World) (orc : Oracle) :
    PState × Option Action :=
  match s.command_queue.get? s.current_command_index with
  | none => ({ s with current_order_id := none }, none)
  | some cmd =>
    if cmd.isStuck then
      let processed' :=
        match s.current_order_id with
        | some o => addProcessed s.processed_orders o
        | none => s.processed_orders
      ({ s with processed_orders := processed', command_queue := [],
                current_command_index := 0, current_order_id := none,
                cleaning_workspace := true, cleanup_turns := 0 }, none)
    else
      let r := cmd.execute gc w orc
      let cmd' := r.1
      let act := r.2
      let s := { s with command_queue := s.command_queue.set s.current_command_index cmd' }
      let postBot := if act.isSome then orc.postBot else w.botState
      if cmd'.isComplete postBot then
        let s := { s with current_command_index := s.current_command_index + 1 }
        if s.current_command_index ≥ s.command_queue.length then
          let processed' :=
            match s.current_order_id with
            | some o => addProcessed s.processed_orders o
            | none => s.processed_orders
          ({ s with processed_orders := processed', current_order_id := none }, act)
        else (s, act)
      else (s, act)

/-- The order-selection phase: pick an order, compile its plan, then step
the first command of the fresh plan in the same tick. -/
def selectionPhase (gc : GameConstants) (s : PState) (w : World) (orc : Oracle)
    (botPos : Pos) : PState × Option Action :=
  let r := selectOrder gc s.initMap w botPos s.processed_orders
  let s := { s with processed_orders := r.2 }
  match r.1 with
  | none => (s, none)
  | some c =>
    let s := { s with current_order_id := some c.order.order_id,
                      command_queue := build_commands_for_order gc c.order (some w.map),
                      current_command_index := 0 }
    if s.command_queue.isEmpty then (s, none)
    else execPhase gc s w orc

/-- The non-cleanup tail of `play_turn`: disposal or selection when the queue
is exhausted, otherwise command stepping. -/
def stepMain (gc : GameConstants) (s : PState) (w : World) (orc : Oracle) :
    PState × Option Action :=
  if s.command_queue.isEmpty || decide (s.current_command_index ≥ s.command_queue.length) then
    match w.botState with
    | none => (s, none)
    | some bot =>
      if bot.holding.isSome then disposalTick s w bot
      else selectionPhase gc s w orc (bot.x, bot.y)
  else execPhase gc s w orc

/-- `BotPlayer.play_turn`: expiry check and plan abort, cleanup mode, then
selection / command stepping. -/
def playTurn (gc : GameConstants) (s : PState) (w : World) (orc : Oracle) :
    PState × Option Action :=
  if w.bots.isEmpty then (s, none)
  else
    let s :=
      match s.current_order_id with
      | some oid =>
        if w.orders.any (fun o => decide (o.order_id = oid) && o.is_active) then s
        else
          { s with processed_orders := addProcessed s.processed_orders oid,
                   command_queue := [], current_command_index := 0,
                   current_order_id := none, cleaning_workspace := true,
                   cleanup_turns := 0 }
      | none => s
    if s.cleaning_workspace then cleanupTick s w
    else stepMain gc s w orc

/-- Iterated execution of `play_turn` over a run of per-tick observations. -/
def runBot (gc : GameConstants) : PState → List (World × Oracle) → PState
  | s, [] => s
  | s, (w, orc) :: rest => runBot gc (playTurn gc s w orc).1 rest

/-- The endpoint of a walk. -/
def followPath : Pos → List (Int × Int) → Pos
  | p, [] => p
  | p, d :: ds => followPath (p.1 + d.1, p.2 + d.2) ds

/-- The loop invariant of the BFS: soundness of queued paths, the visited
set's bookkeeping, the closure/frontier structure and the level ordering of
the queue. -/
structure BfsInv (m : GameMap) (occ : List Pos) (start goal : Pos)
    (fuel : Nat) (q : List BfsEntry) (v : List Pos) : Prop where
  sound : ∀ e ∈ q, pathOk m occ start start e.2 e.1 = true
  nonstart : ∀ e ∈ q, start ∉ pathCells start e.2
  vnodup : v.Nodup
  vbounds : ∀ p ∈ v, p = start ∨ inBounds m p = true
  startv : start ∈ v
  qmem : ∀ e ∈ q, e.1 ∈ v
  closed : ∀ p ∈ v, (∃ pth, ((p, pth) : BfsEntry) ∈ q) ∨
    ∀ d ∈ dirs, validStepCell m occ start (p.1 + d.1, p.2 + d.2) = true →
      ((p.1 + d.1, p.2 + d.2) : Pos) ∈ v
  adjq : ∀ p ∈ v, chebAdjacent p goal = false ∨ ∃ pth, ((p, pth) : BfsEntry) ∈ q
  fuelOk : q.length + (m.width * m.height + 1) ≤ fuel + v.length
  mono : List.Pairwise (fun a b : BfsEntry => a.2.length ≤ b.2.length) q
  twoLevels : ∀ e ∈ q, ∀ e' ∈ q, e.2.length ≤ e'.2.length + 1
  minimal : ∀ e ∈ q, ∀ π e₁, pathOk m occ start start π e₁ = true → e₁ = e.1 →
    e.2.length ≤ π.length
  frontier : ∀ hd, q.head? = some hd → ∀ c (π : List (Int × Int)),
    pathOk m occ start start π c = true → π.length ≤ hd.2.length → c ∈ v

/-- A plain walkable floor tile (for concrete test maps). -/
def tFloor : Tile := ⟨TileName.FLOOR, true, none⟩

/-- A wall tile (for concrete test maps). -/
def tWall : Tile := ⟨TileName.WALL, false, none⟩

/-- A 5x4 map with a two-cell wall pocket at column 1: walking from `(0,0)`
toward `(4,0)` must first detour upward through `(0,1)`. -/
def mapC1 : GameMap :=
  ⟨5, 4, [[tFloor, tFloor, tFloor, tFloor],
          [tWall, tWall, tFloor, tFloor],
          [tFloor, tFloor, tFloor, tFloor],
          [tFloor, tFloor, tFloor, tFloor],
          [tFloor, tFloor, tFloor, tFloor]]⟩

/-- A 3x3 map whose middle column is all wall: the right column is
unreachable from the left. -/
def mapBlocked : GameMap :=
  ⟨3, 3, [[tFloor, tFloor, tFloor],
          [tWall, tWall, tWall],
          [tFloor, tFloor, tFloor]]⟩

/-- A cookable test food (for concrete examples). -/
def meat : FoodType := ⟨"MEAT", false, true, 5⟩

/-- A choppable, non-cooking test food. -/
def noodles : FoodType := ⟨"NOODLES", true, false, 3⟩

/-- A test food needing neither chopping nor cooking. -/
def soda : FoodType := ⟨"SODA", false, false, 1⟩

/-- A test food table with plate cost 2. -/
def gcTest : GameConstants := ⟨[meat, noodles, soda], 2⟩

/-- A counter tile (for concrete test maps). -/
def tCounter : Tile := ⟨TileName.COUNTER, false, none⟩

/-- A 2x2 test map with two counters. -/
def mapTwoCounters : GameMap :=
  ⟨2, 2, [[tCounter, tCounter], [tFloor, tFloor]]⟩

/-- A test order requiring two cooked items. -/
def orderTwoCook : Order := ⟨7, ["MEAT", "MEAT"], 40, 10, some 400, true⟩

/-- A bare test world: the pocket map, no other bots, empty-handed bot at
the origin, no money, no orders, turn 0. -/
def wBare : World := ⟨mapC1, [], some ⟨0, 0, none⟩, 0, [], 0⟩

/-- An oracle whose re-reads report nothing. -/
def orc0 : Oracle := ⟨none, none⟩

/-- The chop command state after one tick in which the bot holds nothing:
the command flags itself failed. -/
def chopAfterLost : ChopIngredientState :=
  (chopIngredientExecute wBare orc0 ⟨initBase 40, none, ChopPhase.navigating, 0, 5, false⟩).1

/-- A 1x1 map holding a cooker whose pan contains perfectly cooked meat. -/
def panStage1Map : GameMap :=
  ⟨1, 1, [[⟨TileName.COOKER, false, some (.pan (some ⟨"MEAT", false, 1⟩))⟩]]⟩

/-- A 1x1 map holding a cooker whose pan contains burnt meat (stage 2). -/
def panStage2Map : GameMap :=
  ⟨1, 1, [[⟨TileName.COOKER, false, some (.pan (some ⟨"MEAT", false, 2⟩))⟩]]⟩

/-- World observing the stage-1 pan. -/
def wPan1 : World := ⟨panStage1Map, [], some ⟨0, 0, none⟩, 0, [], 0⟩

/-- World observing the burnt pan. -/
def wPan2 : World := ⟨panStage2Map, [], some ⟨0, 0, none⟩, 0, [], 0⟩

/-- A finish-cooking command about to pick up from the cooker at `(0,0)`. -/
def fcPick : FinishCookingState := ⟨initBase 80, meat, some (0, 0), .picking_up, false⟩

/-- A finish-cooking command waiting on the cooker at `(0,0)`. -/
def fcWait : FinishCookingState := ⟨initBase 80, meat, some (0, 0), .waiting, false⟩

/-- A finish-cooking command in its terminal state after a burn. -/
def fcDone : FinishCookingState := ⟨initBase 80, meat, none, .done, true⟩

/-- A concrete selectable order: one no-prep item, ample time. -/
def orderSel : Order := ⟨1, ["SODA"], 20, 0, some 400, true⟩

/-- World for the selection witness: one open order at turn 0. -/
def wSel : World := ⟨mapC1, [], some ⟨0, 0, none⟩, 100, [orderSel], 0⟩

/-- The candidate record the selector builds for `orderSel`. -/
def candSel : Candidate := ⟨orderSel, some 400, 35, 20, 3, 17⟩

/-- A world whose bot list is nonempty (another bot parked at `(3,3)`) and
whose order board is empty, so any bound order has gone inactive. -/
def wC7 : World := ⟨mapC1, [((3 : Int), (3 : Int))], some ⟨0, 0, none⟩, 0, [], 0⟩

/-- A player state bound to order 5 (which `wC7` no longer reports). -/
def sC7 : PState := ⟨mapC1, [], 0, [], some 5, false, 0, 20⟩

/-- A player state freshly entered into cleanup mode. -/
def sClean : PState := ⟨mapC1, [], 0, [], none, true, 0, 20⟩

-- ## Theorems

theorem pathOk_followPath {m : GameMap} {occ : List Pos} {st : Pos} :
    ∀ {path : List (Int × Int)} {p q : Pos},
      pathOk m occ st p path q = true → followPath p path = q := by
  intro path
  induction path with
  | nil =>
    intro p q h
    simp [pathOk] at h
    simpa [followPath] using h
  | cons d ds ih =>
    intro p q h
    simp [pathOk, Bool.and_eq_true] at h
    exact ih h.2

theorem pathOk_append_step {m : GameMap} {occ : List Pos} {st : Pos} :
    ∀ {path : List (Int × Int)} {p q : Pos} {d : Int × Int},
      pathOk m occ st p path q = true → d ∈ dirs →
      validStepCell m occ st (q.1 + d.1, q.2 + d.2) = true →
      pathOk m occ st p (path ++ [d]) (q.1 + d.1, q.2 + d.2) = true := by
  intro path
  induction path with
  | nil =>
    intro p q d h hd hv
    simp [pathOk] at h
    subst h
    simp [pathOk, hd, hv]
  | cons d' ds ih =>
    intro p q d h hd hv
    simp only [pathOk, Bool.and_eq_true, decide_eq_true_eq] at h ⊢
    exact ⟨⟨h.1.1, h.1.2⟩, ih h.2 hd hv⟩

theorem pathCells_append {p : Pos} :
    ∀ {xs ys : List (Int × Int)},
      pathCells p (xs ++ ys) = pathCells p xs ++ pathCells (followPath p xs) ys := by
  intro xs
  induction xs generalizing p with
  | nil => intro ys; simp [pathCells, followPath]
  | cons d ds ih => intro ys; simp [pathCells, followPath, ih]

theorem validStepCell_change {m : GameMap} {occ : List Pos} {st st' n : Pos}
    (h : validStepCell m occ st n = true) (hn : n ≠ st) :
    validStepCell m occ st' n = true := by
  simp only [validStepCell, Bool.and_eq_true, Bool.not_eq_true',
    Bool.and_eq_false_iff] at h ⊢
  rcases h with ⟨⟨hb, hmid⟩, hw⟩
  refine ⟨⟨hb, ?_⟩, hw⟩
  rcases hmid with hocc | heq
  · exact Or.inl hocc
  · exfalso
    have : decide (n = st) = true := by
      simpa using heq
    exact hn (by simpa using this)

/-- A walk whose interior cells avoid `st` is valid for any exempted cell. -/
theorem pathOk_change_start {m : GameMap} {occ : List Pos} {st st' : Pos} :
    ∀ {path : List (Int × Int)} {p q : Pos},
      pathOk m occ st p path q = true →
      (∀ c ∈ pathCells p path, c ≠ st) →
      pathOk m occ st' p path q = true := by
  intro path
  induction path with
  | nil => intro p q h _; simpa [pathOk] using h
  | cons d ds ih =>
    intro p q h hns
    simp only [pathOk, Bool.and_eq_true, decide_eq_true_eq] at h ⊢
    obtain ⟨⟨hd, hv⟩, hrest⟩ := h
    have hcell : ((p.1 + d.1, p.2 + d.2) : Pos) ∈ pathCells p (d :: ds) := by
      simp [pathCells]
    refine ⟨⟨hd, validStepCell_change hv (hns _ hcell)⟩, ih hrest ?_⟩
    intro c hc
    exact hns c (by simp [pathCells, hc])

theorem bfsExpand_spec (m : GameMap) (occ : List Pos) (start : Pos) (x y : Int)
    (path : List (Int × Int)) :
    ∀ (ds : List (Int × Int)) (q : List BfsEntry) (v : List Pos),
      ∃ news : List BfsEntry,
        (bfsExpand m occ start x y path ds (q, v)).1 = q ++ news ∧
        (bfsExpand m occ start x y path ds (q, v)).2 = v ++ news.map Prod.fst ∧
        (∀ e ∈ news, ∃ d, d ∈ ds ∧ e.1 = (x + d.1, y + d.2) ∧ e.2 = path ++ [d] ∧
          validStepCell m occ start e.1 = true) ∧
        (∀ e ∈ news, e.1 ∉ v) ∧
        (news.map Prod.fst).Nodup ∧
        (∀ d ∈ ds, validStepCell m occ start (x + d.1, y + d.2) = true →
          (x + d.1, y + d.2) ∈ v ++ news.map Prod.fst) := by
  intro ds
  induction ds with
  | nil =>
    intro q v
    exact ⟨[], by simp [bfsExpand], by simp [bfsExpand], by simp, by simp, by simp, by simp⟩
  | cons d ds ih =>
    intro q v
    set n : Pos := (x + d.1, y + d.2) with hn
    by_cases h1 : n ∈ v
    · obtain ⟨news, e1, e2, e3, e4, e5, e6⟩ := ih q v
      refine ⟨news, ?_, ?_, ?_, e4, e5, ?_⟩
      · simpa [bfsExpand, h1] using e1
      · simpa [bfsExpand, h1] using e2
      · intro e he
        obtain ⟨d', hd', rest⟩ := e3 e he
        exact ⟨d', List.mem_cons_of_mem _ hd', rest⟩
      · intro d' hd' hv'
        rcases List.mem_cons.mp hd' with rfl | hd'
        · exact List.mem_append.mpr (Or.inl h1)
        · exact e6 d' hd' hv'
    · by_cases h2 : inBounds m n = true
      · by_cases h3 : n ∈ occ ∧ n ≠ start
        · have hvf : validStepCell m occ start n = false := by
            simp only [validStepCell, Bool.and_eq_false_iff]
            refine Or.inl (Or.inr ?_)
            simp only [Bool.not_eq_false', Bool.and_eq_true, Bool.not_eq_true',
              decide_eq_true_eq]
            exact ⟨by simpa using h3.1, by simpa using h3.2⟩
          obtain ⟨news, e1, e2, e3, e4, e5, e6⟩ := ih q v
          refine ⟨news, ?_, ?_, ?_, e4, e5, ?_⟩
          · simpa [bfsExpand, h1, h2, h3] using e1
          · simpa [bfsExpand, h1, h2, h3] using e2
          · intro e he
            obtain ⟨d', hd', rest⟩ := e3 e he
            exact ⟨d', List.mem_cons_of_mem _ hd', rest⟩
          · intro d' hd' hv'
            rcases List.mem_cons.mp hd' with rfl | hd'
            · rw [← hn] at hv'
              rw [hv'] at hvf
              exact absurd hvf (by simp)
            · exact e6 d' hd' hv'
        · by_cases h4 : (m.tileAt n.1 n.2).is_walkable = true
          · obtain ⟨news, e1, e2, e3, e4, e5, e6⟩ :=
              ih (q ++ [(n, path ++ [d])]) (v ++ [n])
            have hvt : validStepCell m occ start n = true := by
              simp only [validStepCell, Bool.and_eq_true]
              refine ⟨⟨h2, ?_⟩, h4⟩
              simp only [Bool.not_eq_true', Bool.and_eq_false_iff]
              by_cases ho : n ∈ occ
              · refine Or.inr ?_
                simp only [Bool.not_eq_false', decide_eq_true_eq]
                by_contra hne
                exact h3 ⟨ho, by simpa using hne⟩
              · exact Or.inl (by simpa using ho)
            refine ⟨(n, path ++ [d]) :: news, ?_, ?_, ?_, ?_, ?_, ?_⟩
            · rw [show bfsExpand m occ start x y path (d :: ds) (q, v)
                  = bfsExpand m occ start x y path ds
                      (q ++ [(n, path ++ [d])], v ++ [n]) by
                simp [bfsExpand, h1, h2, h3, h4]]
              simpa [List.append_assoc] using e1
            · rw [show bfsExpand m occ start x y path (d :: ds) (q, v)
                  = bfsExpand m occ start x y path ds
                      (q ++ [(n, path ++ [d])], v ++ [n]) by
                simp [bfsExpand, h1, h2, h3, h4]]
              simpa [List.append_assoc] using e2
            · intro e he
              rcases List.mem_cons.mp he with rfl | he
              · exact ⟨d, List.mem_cons_self _ _, rfl, rfl, hvt⟩
              · obtain ⟨d', hd', rest⟩ := e3 e he
                exact ⟨d', List.mem_cons_of_mem _ hd', rest⟩
            · intro e he
              rcases List.mem_cons.mp he with rfl | he
              · exact h1
              · intro hv'
                exact e4 e he (List.mem_append.mpr (Or.inl hv'))
            · simp only [List.map_cons, List.nodup_cons]
              refine ⟨?_, e5⟩
              intro hmem
              obtain ⟨e, he, hfst⟩ := List.mem_map.mp hmem
              have := e4 e he
              rw [hfst] at this
              exact this (List.mem_append.mpr (Or.inr (List.mem_singleton.mpr rfl)))
            · intro d' hd' hv'
              rcases List.mem_cons.mp hd' with rfl | hd'
              · simp
              · have := e6 d' hd' hv'
                simpa [List.append_assoc] using this
          · have hvf : validStepCell m occ start n = false := by
              simp only [validStepCell, Bool.and_eq_false_iff]
              exact Or.inr (by simpa using h4)
            obtain ⟨news, e1, e2, e3, e4, e5, e6⟩ := ih q v
            refine ⟨news, ?_, ?_, ?_, e4, e5, ?_⟩
            · simpa [bfsExpand, h1, h2, h3, h4] using e1
            · simpa [bfsExpand, h1, h2, h3, h4] using e2
            · intro e he
              obtain ⟨d', hd', rest⟩ := e3 e he
              exact ⟨d', List.mem_cons_of_mem _ hd', rest⟩
            · intro d' hd' hv'
              rcases List.mem_cons.mp hd' with rfl | hd'
              · rw [← hn] at hv'
                rw [hv'] at hvf
                exact absurd hvf (by simp)
              · exact e6 d' hd' hv'
      · have hvf : validStepCell m occ start n = false := by
          simp only [validStepCell, Bool.and_eq_false_iff]
          exact Or.inl (Or.inl (by simpa using h2))
        obtain ⟨news, e1, e2, e3, e4, e5, e6⟩ := ih q v
        refine ⟨news, ?_, ?_, ?_, e4, e5, ?_⟩
        · simpa [bfsExpand, h1, h2] using e1
        · simpa [bfsExpand, h1, h2] using e2
        · intro e he
          obtain ⟨d', hd', rest⟩ := e3 e he
          exact ⟨d', List.mem_cons_of_mem _ hd', rest⟩
        · intro d' hd' hv'
          rcases List.mem_cons.mp hd' with rfl | hd'
          · rw [← hn] at hv'
            rw [hv'] at hvf
            exact absurd hvf (by simp)
          · exact e6 d' hd' hv'

theorem pathOk_append_iff {m : GameMap} {occ : List Pos} {st : Pos} :
    ∀ {xs ys : List (Int × Int)} {p q : Pos},
      pathOk m occ st p (xs ++ ys) q = true ↔
        (pathOk m occ st p xs (followPath p xs) = true ∧
          pathOk m occ st (followPath p xs) ys q = true) := by
  intro xs
  induction xs with
  | nil =>
    intro ys p q
    simp [pathOk, followPath]
  | cons d ds ih =>
    intro ys p q
    simp only [List.cons_append, pathOk, Bool.and_eq_true, followPath, List.append_eq]
    rw [ih]
    tauto

theorem mem_allCells_of_inBounds {m : GameMap} {p : Pos} (h : inBounds m p = true) :
    p ∈ allCells m := by
  obtain ⟨px, py⟩ := p
  simp only [inBounds, Bool.and_eq_true, decide_eq_true_eq] at h
  obtain ⟨⟨⟨h1, h2⟩, h3⟩, h4⟩ := h
  simp only [allCells, List.mem_flatten, List.mem_map, List.mem_range]
  refine ⟨(List.range m.height).map fun y => (Int.ofNat px.toNat, Int.ofNat y),
    ⟨px.toNat, by omega, rfl⟩, ?_⟩
  simp only [List.mem_map, List.mem_range]
  refine ⟨py.toNat, by omega, ?_⟩
  simp only [Int.ofNat_eq_coe, Int.toNat_of_nonneg h1, Int.toNat_of_nonneg h3]

theorem allCells_length (m : GameMap) : (allCells m).length = m.width * m.height := by
  simp only [allCells, List.length_flatten, List.map_map]
  have h : (List.map (List.length ∘ fun x =>
      List.map (fun y => (Int.ofNat x, Int.ofNat y)) (List.range m.height))
      (List.range m.width)) = List.replicate m.width m.height := by
    refine List.eq_replicate_iff.mpr ⟨by simp, ?_⟩
    intro b hb
    obtain ⟨x, _, hx⟩ := List.mem_map.mp hb
    simp only [Function.comp_apply, List.length_map, List.length_range] at hx
    omega
  rw [h, List.sum_replicate, smul_eq_mul, mul_comm]

theorem visited_length_le {m : GameMap} {start : Pos} {v : List Pos}
    (hnd : v.Nodup) (hb : ∀ p ∈ v, p = start ∨ inBounds m p = true) :
    v.length ≤ m.width * m.height + 1 := by
  have hsub : v ⊆ start :: allCells m := by
    intro p hp
    rcases hb p hp with rfl | hib
    · exact List.mem_cons_self _ _
    · exact List.mem_cons_of_mem _ (mem_allCells_of_inBounds hib)
  have := (List.subperm_of_subset hnd hsub).length_le
  simpa [allCells_length] using this

/-- If every visited cell is closed under admissible steps, every valid walk
from a visited cell stays inside the visited set. -/
theorem closure_reach {m : GameMap} {occ : List Pos} {start : Pos} {v : List Pos}
    (hcl : ∀ p ∈ v, ∀ d ∈ dirs,
      validStepCell m occ start (p.1 + d.1, p.2 + d.2) = true →
        ((p.1 + d.1, p.2 + d.2) : Pos) ∈ v) :
    ∀ {π : List (Int × Int)} {p e : Pos}, p ∈ v →
      pathOk m occ start p π e = true → e ∈ v := by
  intro π
  induction π with
  | nil =>
    intro p e hp h
    simp only [pathOk, decide_eq_true_eq] at h
    exact h ▸ hp
  | cons d ds ih =>
    intro p e hp h
    simp only [pathOk, Bool.and_eq_true, decide_eq_true_eq] at h
    exact ih (hcl p hp d h.1.1 h.1.2) h.2

/-- With an empty queue, the visited set is closed, so no cell adjacent to
the goal can be reachable (all visited cells are non-adjacent). -/
theorem emptyQueue_no_reach {m : GameMap} {occ : List Pos} {start goal : Pos}
    {fuel : Nat} {v : List Pos} (inv : BfsInv m occ start goal fuel [] v) :
    ¬ reachableAdj m occ start goal := by
  rintro ⟨π, e, hπ, hadj⟩
  have hcl : ∀ p ∈ v, ∀ d ∈ dirs,
      validStepCell m occ start (p.1 + d.1, p.2 + d.2) = true →
        ((p.1 + d.1, p.2 + d.2) : Pos) ∈ v := by
    intro p hp d hd hvs
    rcases inv.closed p hp with ⟨pth, hmem⟩ | hcl
    · exact absurd hmem (List.not_mem_nil _)
    · exact hcl d hd hvs
  have hev : e ∈ v := closure_reach hcl inv.startv hπ
  rcases inv.adjq e hev with hfalse | ⟨pth, hmem⟩
  · rw [hadj] at hfalse
    exact absurd hfalse (by simp)
  · exact absurd hmem (List.not_mem_nil _)

/-- The step case workhorse: popping a non-adjacent head re-establishes the
invariant on the expanded queue and visited set. -/
theorem bfsInv_step {m : GameMap} {occ : List Pos} {start goal : Pos}
    {fuel : Nat} {p : Pos} {pth : List (Int × Int)} {rest : List BfsEntry}
    {v : List Pos}
    (inv : BfsInv m occ start goal (fuel + 1) ((p, pth) :: rest) v)
    (hadj : chebAdjacent p goal = false) :
    BfsInv m occ start goal fuel
      (bfsExpand m occ start p.1 p.2 pth dirs (rest, v)).1
      (bfsExpand m occ start p.1 p.2 pth dirs (rest, v)).2 := by
  obtain ⟨news, e1, e2, e3, e4, e5, e6⟩ := bfsExpand_spec m occ start p.1 p.2 pth dirs rest v
  rw [e1, e2]
  have hheadmem : ((p, pth) : BfsEntry) ∈ (p, pth) :: rest := List.mem_cons_self _ _
  have hsound_head : pathOk m occ start start pth p = true := inv.sound _ hheadmem
  have hfollow : followPath start pth = p := pathOk_followPath hsound_head
  have hn_head : start ∉ pathCells start pth := inv.nonstart _ hheadmem
  have hpairs := List.pairwise_cons.mp inv.mono
  have hheadle : ∀ b ∈ rest, pth.length ≤ b.2.length := fun b hb => hpairs.1 b hb
  have hrest_pairwise := hpairs.2
  -- facts about the news entries
  have hlen : ∀ e ∈ news, e.2.length = pth.length + 1 := by
    intro e he
    obtain ⟨d, _, _, he2, _⟩ := e3 e he
    simp [he2]
  have hnews_sound : ∀ e ∈ news, pathOk m occ start start e.2 e.1 = true := by
    intro e he
    obtain ⟨d, hd, he1, he2, hvalid⟩ := e3 e he
    rw [he2, he1]
    exact pathOk_append_step hsound_head hd (by rw [← he1]; exact hvalid)
  have hnews_nstart : ∀ e ∈ news, e.1 ≠ start := by
    intro e he heq
    exact e4 e he (heq ▸ inv.startv)
  have hnews_pc : ∀ e ∈ news, start ∉ pathCells start e.2 := by
    intro e he
    obtain ⟨d, hd, he1, he2, hvalid⟩ := e3 e he
    rw [he2, pathCells_append, hfollow]
    intro hmem
    rcases List.mem_append.mp hmem with h | h
    · exact hn_head h
    · simp only [pathCells, List.mem_singleton] at h
      exact hnews_nstart e he (by rw [he1, ← h])
  have hfst_mem : ∀ x ∈ news.map Prod.fst, ∃ e ∈ news, e.1 = x := by
    intro x hx
    obtain ⟨e, he, hfst⟩ := List.mem_map.mp hx
    exact ⟨e, he, hfst⟩
  -- the new minimality and order facts, needed inside `frontier` below
  have hminimal : ∀ e ∈ rest ++ news, ∀ π e₁,
      pathOk m occ start start π e₁ = true → e₁ = e.1 → e.2.length ≤ π.length := by
    intro e he π e₁ hπ heq
    rcases List.mem_append.mp he with he | he
    · exact inv.minimal e (List.mem_cons_of_mem _ he) π e₁ hπ heq
    · by_contra hlt
      push_neg at hlt
      have hπle : π.length ≤ pth.length := by
        have := hlen e he
        omega
      have := inv.frontier (p, pth) rfl e₁ π hπ hπle
      rw [heq] at this
      exact e4 e he this
  have hmono : List.Pairwise (fun a b : BfsEntry => a.2.length ≤ b.2.length)
      (rest ++ news) := by
    rw [List.pairwise_append]
    refine ⟨hrest_pairwise, ?_, ?_⟩
    · exact List.pairwise_of_forall_mem_list fun a ha b hb => by
        rw [hlen a ha, hlen b hb]
    · intro a ha b hb
      have := inv.twoLevels a (List.mem_cons_of_mem _ ha) (p, pth) hheadmem
      rw [hlen b hb]
      exact this
  have hclosed : ∀ p' ∈ v ++ news.map Prod.fst,
      (∃ pth₂, ((p', pth₂) : BfsEntry) ∈ rest ++ news) ∨
      ∀ d ∈ dirs, validStepCell m occ start (p'.1 + d.1, p'.2 + d.2) = true →
        ((p'.1 + d.1, p'.2 + d.2) : Pos) ∈ v ++ news.map Prod.fst := by
    intro p' hp'
    rcases List.mem_append.mp hp' with hp' | hp'
    · rcases inv.closed p' hp' with ⟨pth₂, hment⟩ | hcl
      · rcases List.mem_cons.mp hment with heq | hment
        · -- the popped head: now closed by the expansion
          have hpp : p' = p := by
            have := congrArg Prod.fst heq
            simpa using this
          subst hpp
          exact Or.inr fun d hd hv' => e6 d hd hv'
        · exact Or.inl ⟨pth₂, List.mem_append.mpr (Or.inl hment)⟩
      · exact Or.inr fun d hd hv' => List.mem_append.mpr (Or.inl (hcl d hd hv'))
    · obtain ⟨e, he, hfst⟩ := hfst_mem p' hp'
      refine Or.inl ⟨e.2, List.mem_append.mpr (Or.inr ?_)⟩
      have : ((p', e.2) : BfsEntry) = e := by
        obtain ⟨ea, eb⟩ := e
        simp only at hfst
        simp [hfst]
      rw [this]
      exact he
  refine ⟨?_, ?_, ?_, ?_, ?_, ?_, hclosed, ?_, ?_, hmono, ?_, hminimal, ?_⟩
  · -- sound
    intro e he
    rcases List.mem_append.mp he with he | he
    · exact inv.sound e (List.mem_cons_of_mem _ he)
    · exact hnews_sound e he
  · -- nonstart
    intro e he
    rcases List.mem_append.mp he with he | he
    · exact inv.nonstart e (List.mem_cons_of_mem _ he)
    · exact hnews_pc e he
  · -- vnodup
    refine List.nodup_append.mpr ⟨inv.vnodup, e5, ?_⟩
    intro a ha hb
    obtain ⟨e, he, hfst⟩ := hfst_mem a hb
    exact e4 e he (hfst ▸ ha)
  · -- vbounds
    intro p' hp'
    rcases List.mem_append.mp hp' with hp' | hp'
    · exact inv.vbounds p' hp'
    · obtain ⟨e, he, hfst⟩ := hfst_mem p' hp'
      obtain ⟨d, hd, he1, he2, hvalid⟩ := e3 e he
      refine Or.inr ?_
      rw [← hfst]
      simp only [validStepCell, Bool.and_eq_true] at hvalid
      exact hvalid.1.1
  · -- startv
    exact List.mem_append.mpr (Or.inl inv.startv)
  · -- qmem
    intro e he
    rcases List.mem_append.mp he with he | he
    · exact List.mem_append.mpr (Or.inl (inv.qmem e (List.mem_cons_of_mem _ he)))
    · exact List.mem_append.mpr (Or.inr (List.mem_map.mpr ⟨e, he, rfl⟩))
  · -- adjq
    intro p' hp'
    rcases List.mem_append.mp hp' with hp' | hp'
    · rcases inv.adjq p' hp' with hf | ⟨pth₂, hment⟩
      · exact Or.inl hf
      · rcases List.mem_cons.mp hment with heq | hment
        · have hpp : p' = p := by
            have := congrArg Prod.fst heq
            simpa using this
          exact Or.inl (hpp ▸ hadj)
        · exact Or.inr ⟨pth₂, List.mem_append.mpr (Or.inl hment)⟩
    · obtain ⟨e, he, hfst⟩ := hfst_mem p' hp'
      refine Or.inr ⟨e.2, List.mem_append.mpr (Or.inr ?_)⟩
      have : ((p', e.2) : BfsEntry) = e := by
        obtain ⟨ea, eb⟩ := e
        simp only at hfst
        simp [hfst]
      rw [this]
      exact he
  · -- fuelOk
    have := inv.fuelOk
    simp only [List.length_cons, List.length_append, List.length_map] at this ⊢
    omega
  · -- twoLevels
    intro e he e' he'
    rcases List.mem_append.mp he with he | he <;>
      rcases List.mem_append.mp he' with he' | he'
    · exact inv.twoLevels e (List.mem_cons_of_mem _ he) e' (List.mem_cons_of_mem _ he')
    · have h2 := inv.twoLevels e (List.mem_cons_of_mem _ he) (p, pth) hheadmem
      simp only at h2
      rw [hlen e' he']
      omega
    · have h2 := hheadle e' he'
      rw [hlen e he]
      omega
    · rw [hlen e he, hlen e' he']
      omega
  · -- frontier
    intro hd' hhd' c π hπ hπlen
    obtain ⟨tail, htail⟩ := List.head?_eq_some_iff.mp hhd'
    have hhd'mem : hd' ∈ rest ++ news := by
      rw [htail]
      exact List.mem_cons_self _ _
    have hL'max : hd'.2.length ≤ pth.length + 1 := by
      rcases List.mem_append.mp hhd'mem with h | h
      · exact inv.twoLevels hd' (List.mem_cons_of_mem _ h) (p, pth) hheadmem
      · rw [hlen hd' h]
    by_cases hπL : π.length ≤ pth.length
    · exact List.mem_append.mpr (Or.inl (inv.frontier (p, pth) rfl c π hπ hπL))
    · -- π has length exactly pth.length + 1; peel its last step
      push_neg at hπL
      have hπlen' : π.length = pth.length + 1 := by omega
      have hπne : π ≠ [] := by
        intro h
        rw [h] at hπlen'
        simp at hπlen'
      rcases List.eq_nil_or_concat' π with h | ⟨π₀, dl, rfl⟩
      · exact absurd h hπne
      have hsplit := pathOk_append_iff.mp hπ
      set w := followPath start π₀ with hw
      have hπ₀ : pathOk m occ start start π₀ w = true := hsplit.1
      have hlast : pathOk m occ start w [dl] c = true := hsplit.2
      have hπ₀len : π₀.length = pth.length := by
        simp only [List.length_append, List.length_singleton] at hπlen'
        omega
      have hwv : w ∈ v := inv.frontier (p, pth) rfl w π₀ hπ₀
        (by show π₀.length ≤ pth.length; omega)
      -- decompose the final step
      simp only [pathOk, Bool.and_eq_true, decide_eq_true_eq] at hlast
      obtain ⟨⟨hdl, hvalid⟩, hc⟩ := hlast
      -- w cannot still be queued: queued paths at w would be too short
      rcases hclosed w (List.mem_append.mpr (Or.inl hwv)) with ⟨pw, hpw⟩ | hcl
      · exfalso
        have hminw := hminimal (w, pw) hpw π₀ w hπ₀ rfl
        simp only at hminw
        have hge : hd'.2.length ≤ pw.length := by
          rw [htail] at hpw
          rcases List.mem_cons.mp hpw with heq | hpw
          · rw [← heq]
          · have hpair := List.pairwise_cons.mp (htail ▸ hmono)
            exact hpair.1 _ hpw
        have : pth.length + 1 ≤ hd'.2.length := by omega
        omega
      · rw [← hc]
        exact hcl dl hdl hvalid

/-- Correctness of the BFS loop under the invariant: a returned move heads a
valid walk of minimal length among all walks reaching a goal-adjacent cell,
and `none` is returned only when no goal-adjacent cell is reachable. -/
theorem bfsLoop_correct {m : GameMap} {occ : List Pos} {start goal : Pos}
    (hsg : chebAdjacent start goal = false) :
    ∀ (fuel : Nat) (q : List BfsEntry) (v : List Pos),
      BfsInv m occ start goal fuel q v →
      (∀ d, bfsLoop m occ start goal fuel q v = some d →
          ∃ pth e, pth.head? = some d ∧ pathOk m occ start start pth e = true ∧
            start ∉ pathCells start pth ∧ chebAdjacent e goal = true ∧
            ∀ π e', pathOk m occ start start π e' = true →
              chebAdjacent e' goal = true → pth.length ≤ π.length) ∧
      (bfsLoop m occ start goal fuel q v = none → ¬ reachableAdj m occ start goal) := by
  intro fuel
  induction fuel with
  | zero =>
    intro q v inv
    constructor
    · intro d h
      simp [bfsLoop] at h
    · intro _
      have hvle := visited_length_le inv.vnodup inv.vbounds
      have hq : q = [] := by
        have := inv.fuelOk
        have : q.length = 0 := by omega
        exact List.length_eq_zero.mp this
      subst hq
      exact emptyQueue_no_reach inv
  | succ fuel ih =>
    intro q v inv
    match q with
    | [] =>
      constructor
      · intro d h
        simp [bfsLoop] at h
      · intro _
        exact emptyQueue_no_reach inv
    | (p, pth) :: rest =>
      by_cases hadj : chebAdjacent p goal = true
      · have hres : bfsLoop m occ start goal (fuel + 1) ((p, pth) :: rest) v
            = pth.head? := by
          simp [bfsLoop, hadj]
        constructor
        · intro d h
          rw [hres] at h
          have hheadmem : ((p, pth) : BfsEntry) ∈ (p, pth) :: rest :=
            List.mem_cons_self _ _
          refine ⟨pth, p, h, inv.sound _ hheadmem, inv.nonstart _ hheadmem, hadj, ?_⟩
          intro π e' hπ hadj'
          by_contra hlt
          push_neg at hlt
          have hπle : π.length ≤ pth.length := by omega
          have he'v : e' ∈ v := inv.frontier (p, pth) rfl e' π hπ hπle
          rcases inv.adjq e' he'v with hf | ⟨pth₂, hment⟩
          · rw [hadj'] at hf
            exact absurd hf (by simp)
          · have hmin := inv.minimal (e', pth₂) hment π e' hπ rfl
            simp only at hmin
            rcases List.mem_cons.mp hment with heq | hment'
            · have hpp : pth₂ = pth := by
                have := congrArg Prod.snd heq
                simpa using this
              rw [hpp] at hmin
              omega
            · have := (List.pairwise_cons.mp inv.mono).1 _ hment'
              simp only at this
              omega
        · intro h
          rw [hres] at h
          have hpth : pth = [] := List.head?_eq_none_iff.mp h
          subst hpth
          have := inv.sound _ (List.mem_cons_self ((p, []) : BfsEntry) rest)
          simp only [pathOk, decide_eq_true_eq] at this
          rw [this] at hsg
          rw [hadj] at hsg
          simp at hsg
      · have hadj' : chebAdjacent p goal = false := by
          simpa using hadj
        have hres : bfsLoop m occ start goal (fuel + 1) ((p, pth) :: rest) v
            = bfsLoop m occ start goal fuel
                (bfsExpand m occ start p.1 p.2 pth dirs (rest, v)).1
                (bfsExpand m occ start p.1 p.2 pth dirs (rest, v)).2 := by
          simp [bfsLoop, hadj]
        have inv' := bfsInv_step inv hadj'
        have := ih _ _ inv'
        rw [hres]
        exact this

/-- The initial queue and visited set satisfy the invariant. -/
theorem bfs_initial_inv (m : GameMap) (occ : List Pos) (start goal : Pos) :
    BfsInv m occ start goal (m.width * m.height + 1)
      [((start, []) : BfsEntry)] [start] := by
  refine ⟨?_, ?_, ?_, ?_, ?_, ?_, ?_, ?_, ?_, ?_, ?_, ?_, ?_⟩
  · intro e he
    simp only [List.mem_singleton] at he
    subst he
    simp [pathOk]
  · intro e he
    simp only [List.mem_singleton] at he
    subst he
    simp [pathCells]
  · simp
  · intro p hp
    simp only [List.mem_singleton] at hp
    exact Or.inl hp
  · simp
  · intro e he
    simp only [List.mem_singleton] at he
    subst he
    simp
  · intro p hp
    simp only [List.mem_singleton] at hp
    subst hp
    exact Or.inl ⟨[], List.mem_singleton.mpr rfl⟩
  · intro p hp
    simp only [List.mem_singleton] at hp
    subst hp
    exact Or.inr ⟨[], List.mem_singleton.mpr rfl⟩
  · simp only [List.length_singleton]
    omega
  · simp
  · intro e he e' he'
    simp only [List.mem_singleton] at he he'
    subst he
    subst he'
    simp
  · intro e he π e₁ hπ heq
    simp only [List.mem_singleton] at he
    subst he
    simp
  · intro hd hhd c π hπ hlen
    simp only [List.head?_cons, Option.some_inj] at hhd
    subst hhd
    simp only [List.length_nil, Nat.le_zero, List.length_eq_zero] at hlen
    subst hlen
    simp only [pathOk, decide_eq_true_eq] at hπ
    subst hπ
    simp

/-- Soundness and optimality of `bfs_to_adjacent`: a returned move is the
first step of a valid walk of minimal length among all walks from the start
to a cell Chebyshev-adjacent to the goal. -/
theorem bfs_sound {m : GameMap} {occ : List Pos} {start goal : Pos}
    {d : Int × Int} (h : bfs_to_adjacent m occ start goal = some d) :
    chebAdjacent start goal = false ∧
    ∃ pth e, pth.head? = some d ∧ pathOk m occ start start pth e = true ∧
      start ∉ pathCells start pth ∧ chebAdjacent e goal = true ∧
      ∀ π e', pathOk m occ start start π e' = true →
        chebAdjacent e' goal = true → pth.length ≤ π.length := by
  by_cases hadj : chebAdjacent start goal = true
  · rw [bfs_to_adjacent, if_pos hadj] at h
    exact absurd h (by simp)
  · have hadj' : chebAdjacent start goal = false := by simpa using hadj
    rw [bfs_to_adjacent, if_neg hadj] at h
    exact ⟨hadj',
      (bfsLoop_correct hadj' _ _ _ (bfs_initial_inv m occ start goal)).1 d h⟩

/-- Completeness of `bfs_to_adjacent`: `none` is returned only when the start
is already adjacent to the goal or no valid walk reaches a goal-adjacent
cell. -/
theorem bfs_none_iff {m : GameMap} {occ : List Pos} {start goal : Pos} :
    bfs_to_adjacent m occ start goal = none ↔
      chebAdjacent start goal = true ∨ ¬ reachableAdj m occ start goal := by
  constructor
  · intro h
    by_cases hadj : chebAdjacent start goal = true
    · exact Or.inl hadj
    · have hadj' : chebAdjacent start goal = false := by simpa using hadj
      rw [bfs_to_adjacent, if_neg hadj] at h
      exact Or.inr
        ((bfsLoop_correct hadj' _ _ _ (bfs_initial_inv m occ start goal)).2 h)
  · intro h
    rcases h with hadj | hunreach
    · rw [bfs_to_adjacent, if_pos hadj]
    · by_cases hadj : chebAdjacent start goal = true
      · rw [bfs_to_adjacent, if_pos hadj]
      · cases hres : bfs_to_adjacent m occ start goal with
        | none => rfl
        | some d =>
          obtain ⟨_, pth, e, _, hπ, _, hadje, _⟩ := bfs_sound hres
          exact absurd ⟨pth, e, hπ, hadje⟩ hunreach

/-- The strict-progress form: a returned move begins a minimal-length valid
walk, and after taking the move the remaining walk is one step shorter. -/
theorem bfs_step_progress {m : GameMap} {occ : List Pos} {start goal : Pos}
    {d : Int × Int} (h : bfs_to_adjacent m occ start goal = some d) :
    chebAdjacent start goal = false ∧
    ∃ tail e, pathOk m occ start start (d :: tail) e = true ∧
      chebAdjacent e goal = true ∧
      pathOk m occ (start.1 + d.1, start.2 + d.2) (start.1 + d.1, start.2 + d.2)
        tail e = true ∧
      ∀ π e', pathOk m occ start start π e' = true → chebAdjacent e' goal = true →
        tail.length + 1 ≤ π.length := by
  obtain ⟨hadj, pth, e, hhead, hπ, hns, hadje, hmin⟩ := bfs_sound h
  obtain ⟨tail, rfl⟩ := List.head?_eq_some_iff.mp hhead
  refine ⟨hadj, tail, e, hπ, hadje, ?_, fun π e' h1 h2 => by
    have := hmin π e' h1 h2
    simpa using this⟩
  simp only [pathOk, Bool.and_eq_true, decide_eq_true_eq] at hπ
  simp only [pathCells, List.mem_cons, not_or] at hns
  exact pathOk_change_start hπ.2 fun c hc heq => hns.2 (heq ▸ hc)

/-- C1 fails on the code: on `mapC1` a walkable path from `(0,0)` to a cell
adjacent to the goal `(4,0)` exists and the Navigator returns the step
`(0,1)`, yet that step leaves the Chebyshev distance to the nearest cell
adjacent to the goal unchanged at 3; moreover with the start `(3,1)` already
adjacent to the goal, a walkable path (the empty walk) exists and yet the
Navigator returns the "unreachable" value `None`, refuting the stated
"unreachable iff no walkable path" equivalence. -/
theorem C1_counterexample :
    (pathOk mapC1 [] (0, 0) (0, 0) [(0, 1), (1, 1), (1, -1), (1, 0)] (3, 1) = true ∧
      chebAdjacent (3, 1) (4, 0) = true) ∧
    bfs_to_adjacent mapC1 [] (0, 0) (4, 0) = some (0, 1) ∧
    minAdjChebDist mapC1 (0, 1) (4, 0) = minAdjChebDist mapC1 (0, 0) (4, 0) ∧
    minAdjChebDist mapC1 (0, 0) (4, 0) = some 3 ∧
    (chebAdjacent (3, 1) (4, 0) = true ∧
      pathOk mapC1 [] (3, 1) (3, 1) [] (3, 1) = true ∧
      bfs_to_adjacent mapC1 [] (3, 1) (4, 0) = none) := by
  decide

/-- C1 (amended): when the Navigator returns a step `d`, the start is not
adjacent to the goal and `d` is the first move of a walkable walk of minimal
length among all walks to a cell Chebyshev-adjacent to the goal, so taking
the step strictly decreases the number of moves needed to reach such a cell
(the remaining walk is one move shorter than the minimum from the start);
and the Navigator returns `None` exactly when the start is already adjacent
to the goal or no walkable path to a cell adjacent to the goal exists. -/
theorem C1_navigator_amended :
    (∀ (m : GameMap) (occ : List Pos) (start goal : Pos) (d : Int × Int),
      bfs_to_adjacent m occ start goal = some d →
        chebAdjacent start goal = false ∧
        ∃ tail e, pathOk m occ start start (d :: tail) e = true ∧
          chebAdjacent e goal = true ∧
          pathOk m occ (start.1 + d.1, start.2 + d.2) (start.1 + d.1, start.2 + d.2)
            tail e = true ∧
          ∀ π e', pathOk m occ start start π e' = true →
            chebAdjacent e' goal = true → tail.length + 1 ≤ π.length) ∧
    (∀ (m : GameMap) (occ : List Pos) (start goal : Pos),
      bfs_to_adjacent m occ start goal = none ↔
        chebAdjacent start goal = true ∨ ¬ reachableAdj m occ start goal) := by
  constructor
  · intro m occ start goal d h
    exact bfs_step_progress h
  · intro m occ start goal
    exact bfs_none_iff

/-- Witness for the amended C1 at concrete inputs: the step `(0,1)` returned
on `mapC1` heads a minimal walk, and the `None` equivalence is instantiated
at the adjacent start `(3,1)`. -/
theorem C1_navigator_amended_witness :
    (chebAdjacent ((0 : Int), (0 : Int)) (4, 0) = false ∧
      ∃ tail e, pathOk mapC1 [] (0, 0) (0, 0) ((0, 1) :: tail) e = true ∧
        chebAdjacent e (4, 0) = true ∧
        pathOk mapC1 [] (0 + 0, 0 + 1) (0 + 0, 0 + 1) tail e = true ∧
        ∀ π e', pathOk mapC1 [] (0, 0) (0, 0) π e' = true →
          chebAdjacent e' (4, 0) = true → tail.length + 1 ≤ π.length) ∧
    (bfs_to_adjacent mapC1 [] (3, 1) (4, 0) = none ↔
      chebAdjacent ((3 : Int), (1 : Int)) (4, 0) = true ∨
        ¬ reachableAdj mapC1 [] (3, 1) (4, 0)) :=
  ⟨C1_navigator_amended.1 mapC1 [] (0, 0) (4, 0) (0, 1) (by decide),
   C1_navigator_amended.2 mapC1 [] (3, 1) (4, 0)⟩

/-- C9: the Navigator returns `None` both when the start is already within
Chebyshev distance 1 of the goal and when no walkable path to a cell
adjacent to the goal exists, so the two situations are indistinguishable
from the return value; a step is returned only when the start is not
adjacent and such a path exists. -/
theorem C9_navigator_none_ambiguous :
    (∀ (m : GameMap) (occ : List Pos) (start goal : Pos),
      chebAdjacent start goal = true → bfs_to_adjacent m occ start goal = none) ∧
    (∀ (m : GameMap) (occ : List Pos) (start goal : Pos),
      ¬ reachableAdj m occ start goal → bfs_to_adjacent m occ start goal = none) ∧
    (∀ (m : GameMap) (occ : List Pos) (start goal : Pos) (d : Int × Int),
      bfs_to_adjacent m occ start goal = some d →
        chebAdjacent start goal = false ∧ reachableAdj m occ start goal) := by
  refine ⟨?_, ?_, ?_⟩
  · intro m occ start goal h
    exact bfs_none_iff.mpr (Or.inl h)
  · intro m occ start goal h
    exact bfs_none_iff.mpr (Or.inr h)
  · intro m occ start goal d h
    obtain ⟨hadj, pth, e, _, hπ, _, hadje, _⟩ := bfs_sound h
    exact ⟨hadj, pth, e, hπ, hadje⟩

/-- Witness for C9 at concrete inputs: `None` for the adjacent start `(3,1)`
on `mapC1`, `None` for the walled-off goal on `mapBlocked`, and a returned
step on `mapC1` implies non-adjacency and reachability. -/
theorem C9_navigator_none_ambiguous_witness :
    bfs_to_adjacent mapC1 [] (3, 1) (4, 0) = none ∧
    bfs_to_adjacent mapBlocked [] (0, 0) (2, 0) = none ∧
    (chebAdjacent ((0 : Int), (0 : Int)) (4, 0) = false ∧
      reachableAdj mapC1 [] (0, 0) (4, 0)) := by
  have hunreach : ¬ reachableAdj mapBlocked [] (0, 0) (2, 0) := by
    have h := bfs_none_iff.mp (show bfs_to_adjacent mapBlocked [] (0, 0) (2, 0) = none
      by decide)
    rcases h with hadj | h
    · exact absurd hadj (by decide)
    · exact h
  exact ⟨C9_navigator_none_ambiguous.1 mapC1 [] (3, 1) (4, 0) (by decide),
    C9_navigator_none_ambiguous.2.1 mapBlocked [] (0, 0) (2, 0) hunreach,
    C9_navigator_none_ambiguous.2.2 mapC1 [] (0, 0) (4, 0) (0, 1) (by decide)⟩

theorem addIngredientSeq_no_cook (useBox : Bool) (ft : FoodType) :
    (addIngredientSeq useBox ft).any Cmd.isStartCookingCmd = false ∧
    (addIngredientSeq useBox ft).any Cmd.isFinishCookingCmd = false := by
  cases useBox <;>
    simp [addIngredientSeq, mkPlaceOnCounter, mkPickupPlateFromBox,
      mkPickupPlateFromCounter, mkAddFoodToPlate, mkPlaceInBox,
      Cmd.isStartCookingCmd, Cmd.isFinishCookingCmd]

theorem sequentialBody_no_cook (useBox : Bool) :
    ∀ foods : List FoodType,
      (sequentialBody useBox foods).any Cmd.isStartCookingCmd = false ∧
      (sequentialBody useBox foods).any Cmd.isFinishCookingCmd = false := by
  intro foods
  induction foods with
  | nil => simp [sequentialBody]
  | cons f fs ih =>
    have hadd := addIngredientSeq_no_cook useBox f
    have hcons : sequentialBody useBox (f :: fs) =
        ([mkBuyIngredient f] ++
          (if needs_chopping f then [mkChopIngredient] else []) ++
          (if needs_cooking f then [mkCookIngredient] else []) ++
          addIngredientSeq useBox f) ++ sequentialBody useBox fs := by
      simp [sequentialBody]
    rw [hcons]
    cases hc : needs_chopping f <;> cases hk : needs_cooking f <;>
      simp [List.any_append, ih.1, ih.2, hadd.1, hadd.2, mkBuyIngredient,
        mkChopIngredient, mkCookIngredient, Cmd.isStartCookingCmd,
        Cmd.isFinishCookingCmd]

theorem parallelBody_has_start (useBox : Bool) (first : FoodType)
    (restCook nonCook : List FoodType) :
    (parallelBody useBox first restCook nonCook).any Cmd.isStartCookingCmd = true := by
  have h : mkStartCooking ∈ parallelBody useBox first restCook nonCook := by
    simp [parallelBody]
  exact List.any_eq_true.mpr
    ⟨mkStartCooking, h, by simp [mkStartCooking, Cmd.isStartCookingCmd]⟩

/-- C3 fails on the code: the order `orderTwoCook` has two items that need
cooking, and on a map with two counters the compiler still produces an
interleaved plan (it contains start-cooking/finish-cooking commands), not
the claimed strictly sequential fallback. -/
theorem C3_counterexample :
    2 ≤ ((requiredFoods gcTest orderTwoCook.required).filter needs_cooking).length ∧
    useBoxForPlate (some mapTwoCounters) = false ∧
    interleavedPlan
      (build_commands_for_order gcTest orderTwoCook (some mapTwoCounters)) = true := by
  decide

/-- C3 (amended): the compiler produces an interleaved plan exactly when the
order has at least one item needing cooking, the plate is not staged in a
box, and at most one required item needs no cooking; otherwise (in
particular whenever two or more items need no cooking, or the single-counter
box staging is in force) the plan is strictly sequential.  The number of
cooking items does not trigger the sequential fallback. -/
theorem C3_planner_amended :
    ∀ (gc : GameConstants) (order : Order) (cmap : Option GameMap),
      interleavedPlan (build_commands_for_order gc order cmap) = true ↔
        ((requiredFoods gc order.required).filter needs_cooking ≠ [] ∧
          useBoxForPlate cmap = false ∧
          ((requiredFoods gc order.required).filter fun f => !needs_cooking f).length ≤ 1) := by
  intro gc order cmap
  have houter1 : ∀ useBox : Bool,
      ([mkBuyPlate, if useBox then mkPlaceInBox else mkPlaceOnCounter]).any
        Cmd.isStartCookingCmd = false ∧
      ([mkBuyPlate, if useBox then mkPlaceInBox else mkPlaceOnCounter]).any
        Cmd.isFinishCookingCmd = false := by
    intro useBox
    cases useBox <;>
      simp [mkBuyPlate, mkPlaceInBox, mkPlaceOnCounter,
        Cmd.isStartCookingCmd, Cmd.isFinishCookingCmd]
  have houter2 : ∀ useBox : Bool,
      ([(if useBox then mkPickupPlateFromBox else mkPickupPlateFromCounter),
        mkSubmitOrder (some order.order_id)]).any Cmd.isStartCookingCmd = false ∧
      ([(if useBox then mkPickupPlateFromBox else mkPickupPlateFromCounter),
        mkSubmitOrder (some order.order_id)]).any Cmd.isFinishCookingCmd = false := by
    intro useBox
    cases useBox <;>
      simp [mkPickupPlateFromBox, mkPickupPlateFromCounter, mkSubmitOrder,
        Cmd.isStartCookingCmd, Cmd.isFinishCookingCmd]
  have hseq := sequentialBody_no_cook (useBoxForPlate cmap) (requiredFoods gc order.required)
  unfold build_commands_for_order interleavedPlan
  simp only [List.any_append, (houter1 (useBoxForPlate cmap)).1,
    (houter1 (useBoxForPlate cmap)).2, (houter2 (useBoxForPlate cmap)).1,
    (houter2 (useBoxForPlate cmap)).2, Bool.false_or, Bool.or_false]
  cases hcf : (requiredFoods gc order.required).filter needs_cooking with
  | nil =>
    simp only [hcf, hseq.1, hseq.2]
    simp
  | cons first restCook =>
    simp only [hcf]
    split
    · rename_i hcond
      have hp := parallelBody_has_start (useBoxForPlate cmap) first restCook
        ((requiredFoods gc order.required).filter fun f => !needs_cooking f)
      simp only [hp, Bool.true_or, true_iff]
      simp only [Bool.and_eq_true, Bool.not_eq_true', decide_eq_true_eq] at hcond
      exact ⟨by simp, hcond.1, hcond.2⟩
    · rename_i hcond
      simp only [hseq.1, hseq.2]
      simp only [Bool.and_eq_true, Bool.not_eq_true', decide_eq_true_eq, not_and] at hcond
      constructor
      · intro h
        exact absurd h (by simp)
      · rintro ⟨-, hbox, hlen⟩
        exact absurd hlen (hcond hbox)

/-- C8: every compiled plan starts with buy-plate then a plate-staging
command, targets a box for staging exactly when the map has exactly one
counter and at least one box, and ends with a pick-up-plate command from the
same staging location followed by submit. -/
theorem C8_plan_frame :
    ∀ (gc : GameConstants) (order : Order) (m : GameMap),
      ∃ mid, build_commands_for_order gc order (some m) =
        [mkBuyPlate,
          if useBoxForPlate (some m) then mkPlaceInBox else mkPlaceOnCounter]
          ++ mid ++
          [(if useBoxForPlate (some m) then mkPickupPlateFromBox
            else mkPickupPlateFromCounter),
           mkSubmitOrder (some order.order_id)] ∧
        (useBoxForPlate (some m) = true ↔
          (count_tiles m TileName.COUNTER = 1 ∧ 1 ≤ count_tiles m TileName.BOX)) := by
  intro gc order m
  refine ⟨_, rfl, ?_⟩
  simp [useBoxForPlate]

/-- C4 fails on the code: two `StartCookingCommand` instances that observe
the identical bot state but differ in internal progress state return
different `is_complete` values — the result is determined by internal state
alone. -/
theorem C4_counterexample :
    Cmd.isComplete (.startCooking ⟨initBase 100, none, .done⟩)
      (some ⟨0, 0, none⟩) = true ∧
    Cmd.isComplete (.startCooking ⟨initBase 100, none, .navigating⟩)
      (some ⟨0, 0, none⟩) = false := by
  decide

/-- C4 (amended): `is_complete` of the buy, store, place, pickup and submit
command kinds depends only on the observed bot state (it is invariant under
all internal progress fields), but `StartCookingCommand` and
`AddFoodToPlateCommand` decide completion from internal progress state alone
(`state = done`, for every observation), and the chop, cook and
finish-cooking kinds are `false` whenever their internal state is not `done`
regardless of the observation. -/
theorem C4_isComplete_amended :
    (∀ (s : StartCookingState) (bot bot' : Option BotState),
      Cmd.isComplete (.startCooking s) bot = Cmd.isComplete (.startCooking s) bot' ∧
      Cmd.isComplete (.startCooking s) bot = decide (s.state = StartCookPhase.done)) ∧
    (∀ (s : AddFoodToPlateState) (bot bot' : Option BotState),
      Cmd.isComplete (.addFoodToPlate s) bot = Cmd.isComplete (.addFoodToPlate s) bot' ∧
      Cmd.isComplete (.addFoodToPlate s) bot = decide (s.state = AddFoodPhase.done)) ∧
    (∀ (b₁ b₂ : CmdBase) (ft : FoodType) (l₁ l₂ : Option Pos) (a₁ a₂ : Bool)
        (bot : Option BotState),
      Cmd.isComplete (.buyIngredient ⟨b₁, ft, l₁, a₁⟩) bot =
        Cmd.isComplete (.buyIngredient ⟨b₂, ft, l₂, a₂⟩) bot) ∧
    (∀ (b₁ b₂ : CmdBase) (l₁ l₂ : Option Pos) (a₁ a₂ : Bool) (bot : Option BotState),
      Cmd.isComplete (.buyPlate ⟨b₁, l₁, a₁⟩) bot =
        Cmd.isComplete (.buyPlate ⟨b₂, l₂, a₂⟩) bot) ∧
    (∀ (b₁ b₂ : CmdBase) (l₁ l₂ : Option Pos) (bot : Option BotState),
      Cmd.isComplete (.storeInBox ⟨b₁, l₁⟩) bot =
        Cmd.isComplete (.storeInBox ⟨b₂, l₂⟩) bot) ∧
    (∀ (b₁ b₂ : CmdBase) (l₁ l₂ : Option Pos) (r₁ r₂ m₁ m₂ : Nat) (bot : Option BotState),
      Cmd.isComplete (.placeOnCounter ⟨b₁, l₁, r₁, m₁⟩) bot =
        Cmd.isComplete (.placeOnCounter ⟨b₂, l₂, r₂, m₂⟩) bot) ∧
    (∀ (s₁ s₂ : PickupFromBoxState) (bot : Option BotState),
      Cmd.isComplete (.pickupFromBox s₁) bot =
        Cmd.isComplete (.pickupFromBox s₂) bot) ∧
    (∀ (b₁ b₂ : CmdBase) (l₁ l₂ : Option Pos) (r₁ r₂ m₁ m₂ : Nat) (bot : Option BotState),
      Cmd.isComplete (.pickupPlateFromCounter ⟨b₁, l₁, r₁, m₁⟩) bot =
        Cmd.isComplete (.pickupPlateFromCounter ⟨b₂, l₂, r₂, m₂⟩) bot) ∧
    (∀ (b₁ b₂ : CmdBase) (l₁ l₂ : Option Pos) (r₁ r₂ m₁ m₂ : Nat) (bot : Option BotState),
      Cmd.isComplete (.placeInBox ⟨b₁, l₁, r₁, m₁⟩) bot =
        Cmd.isComplete (.placeInBox ⟨b₂, l₂, r₂, m₂⟩) bot) ∧
    (∀ (b₁ b₂ : CmdBase) (l₁ l₂ : Option Pos) (bot : Option BotState),
      Cmd.isComplete (.pickupPlateFromBox ⟨b₁, l₁⟩) bot =
        Cmd.isComplete (.pickupPlateFromBox ⟨b₂, l₂⟩) bot) ∧
    (∀ (b₁ b₂ : CmdBase) (o₁ o₂ : Option Nat) (l₁ l₂ : Option Pos) (sub₁ sub₂ : Bool)
        (bot : Option BotState),
      Cmd.isComplete (.submitOrder ⟨b₁, o₁, l₁, sub₁⟩) bot =
        Cmd.isComplete (.submitOrder ⟨b₂, o₂, l₂, sub₂⟩) bot) ∧
    (∀ (s : ChopIngredientState) (bot : Option BotState), s.state ≠ ChopPhase.done →
      Cmd.isComplete (.chopIngredient s) bot = false) ∧
    (∀ (s : CookIngredientState) (bot : Option BotState), s.state ≠ CookPhase.done →
      Cmd.isComplete (.cookIngredient s) bot = false) ∧
    (∀ (s : FinishCookingState) (bot : Option BotState), s.state ≠ FinishCookPhase.done →
      Cmd.isComplete (.finishCooking s) bot = false) := by
  refine ⟨fun s bot bot' => ⟨rfl, rfl⟩, fun s bot bot' => ⟨rfl, rfl⟩,
    fun _ _ _ _ _ _ _ _ => rfl, fun _ _ _ _ _ _ _ => rfl, fun _ _ _ _ _ => rfl,
    fun _ _ _ _ _ _ _ _ _ => rfl, fun _ _ _ => rfl,
    fun _ _ _ _ _ _ _ _ _ => rfl, fun _ _ _ _ _ _ _ _ _ => rfl,
    fun _ _ _ _ _ => rfl, fun _ _ _ _ _ _ _ _ _ => rfl, ?_, ?_, ?_⟩
  · intro s bot h
    simp [Cmd.isComplete, h]
  · intro s bot h
    simp [Cmd.isComplete, h]
  · intro s bot h
    simp [Cmd.isComplete, h]

/-- Witness for the amended C4 at a concrete input: a chop command whose
internal state is `navigating` is incomplete for a concrete observation. -/
theorem C4_isComplete_amended_witness :
    (⟨initBase 40, none, ChopPhase.navigating, 0, 5, false⟩ : ChopIngredientState).state
        ≠ ChopPhase.done ∧
    Cmd.isComplete
      (.chopIngredient ⟨initBase 40, none, ChopPhase.navigating, 0, 5, false⟩)
      (some ⟨0, 0, none⟩) = false :=
  ⟨by decide,
   C4_isComplete_amended.2.2.2.2.2.2.2.2.2.2.2.1
     ⟨initBase 40, none, ChopPhase.navigating, 0, 5, false⟩ (some ⟨0, 0, none⟩)
     (by decide)⟩

theorem checkProgress_last (b : CmdBase) (cur : String) :
    (checkProgress b cur).last_state = some cur := by
  unfold checkProgress
  split <;> rfl

theorem buy_records_fingerprint :
    ∀ (w : World) (s : BuyIngredientState) (bot : BotState), w.botState = some bot →
      (buyIngredientExecute w s).1.base.last_state =
        some (fpPosHolding bot.x bot.y bot.holding.isSome) := by
  intro w s bot h
  unfold buyIngredientExecute
  rw [h]
  simp only
  repeat' split
  all_goals simp [checkProgress_last]

theorem cook_no_fingerprint :
    ∀ (w : World) (orc : Oracle) (s : CookIngredientState),
      (cookIngredientExecute w orc s).1.base.last_state = s.base.last_state ∧
      (cookIngredientExecute w orc s).1.base.stuck_counter = s.base.stuck_counter := by
  intro w orc s
  obtain ⟨⟨tc, mt, ls, sc⟩, cl, st⟩ := s
  cases hb : w.botState <;> cases st <;>
    simp only [cookIngredientExecute, hb, bumpTurn] <;>
    (repeat' split) <;>
    simp

theorem buyPlate_records_fingerprint :
    ∀ (gc : GameConstants) (w : World) (s : BuyPlateState) (bot : BotState),
      w.botState = some bot →
      (buyPlateExecute gc w s).1.base.last_state =
        some (fpPosHolding bot.x bot.y bot.holding.isSome) := by
  intro gc w s bot h
  unfold buyPlateExecute
  rw [h]
  simp only
  repeat' split
  all_goals simp [checkProgress_last]

theorem chop_records_fingerprint :
    ∀ (w : World) (orc : Oracle) (s : ChopIngredientState) (bot : BotState),
      w.botState = some bot →
      (chopIngredientExecute w orc s).1.base.last_state =
        some (s.state.str ++ "_" ++ toString bot.x ++ "_" ++ toString bot.y ++ "_" ++
          fpBool bot.holding.isSome) := by
  intro w orc s bot h
  unfold chopIngredientExecute
  rw [h]
  simp only
  repeat' split
  all_goals simp [checkProgress_last]

theorem placeOnCounter_records_fingerprint :
    ∀ (w : World) (orc : Oracle) (s : PlaceOnCounterState) (bot : BotState),
      w.botState = some bot →
      (placeOnCounterExecute w orc s).1.base.last_state =
        some (fpPosHolding bot.x bot.y bot.holding.isSome) := by
  intro w orc s bot h
  unfold placeOnCounterExecute
  rw [h]
  simp only
  repeat' split
  all_goals simp [checkProgress_last]

theorem pickupPlateFromCounter_records_fingerprint :
    ∀ (w : World) (s : PickupPlateFromCounterState) (bot : BotState),
      w.botState = some bot →
      (pickupPlateFromCounterExecute w s).1.base.last_state =
        some (fpPosHolding bot.x bot.y bot.holding.isSome) := by
  intro w s bot h
  unfold pickupPlateFromCounterExecute
  rw [h]
  simp only
  repeat' split
  all_goals simp [checkProgress_last]

theorem addFood_records_fingerprint :
    ∀ (w : World) (orc : Oracle) (s : AddFoodToPlateState) (bot : BotState),
      w.botState = some bot →
      (addFoodToPlateExecute w orc s).1.base.last_state =
        some (s.state.str ++ "_" ++ toString bot.x ++ "_" ++ toString bot.y) := by
  intro w orc s bot h
  unfold addFoodToPlateExecute
  rw [h]
  simp only
  repeat' split
  all_goals simp [checkProgress_last]

theorem startCooking_no_fingerprint :
    ∀ (w : World) (orc : Oracle) (s : StartCookingState),
      (startCookingExecute w orc s).1.base.last_state = s.base.last_state ∧
      (startCookingExecute w orc s).1.base.stuck_counter = s.base.stuck_counter := by
  intro w orc s
  unfold startCookingExecute
  dsimp only
  repeat' split
  all_goals simp [bumpTurn]

theorem finishCooking_no_fingerprint :
    ∀ (w : World) (orc : Oracle) (s : FinishCookingState),
      (finishCookingExecute w orc s).1.base.last_state = s.base.last_state ∧
      (finishCookingExecute w orc s).1.base.stuck_counter = s.base.stuck_counter := by
  intro w orc s
  unfold finishCookingExecute
  dsimp only
  repeat' split
  all_goals simp [bumpTurn]

theorem storeInBox_no_fingerprint :
    ∀ (w : World) (s : StoreInBoxState),
      (storeInBoxExecute w s).1.base.last_state = s.base.last_state ∧
      (storeInBoxExecute w s).1.base.stuck_counter = s.base.stuck_counter := by
  intro w s
  unfold storeInBoxExecute
  dsimp only
  repeat' split
  all_goals simp [bumpTurn]

theorem pickupFromBox_no_fingerprint :
    ∀ (w : World) (s : PickupFromBoxState),
      (pickupFromBoxExecute w s).1.base.last_state = s.base.last_state ∧
      (pickupFromBoxExecute w s).1.base.stuck_counter = s.base.stuck_counter := by
  intro w s
  unfold pickupFromBoxExecute
  dsimp only
  repeat' split
  all_goals simp [bumpTurn]

theorem placeInBox_no_fingerprint :
    ∀ (w : World) (orc : Oracle) (s : PlaceInBoxState),
      (placeInBoxExecute w orc s).1.base.last_state = s.base.last_state ∧
      (placeInBoxExecute w orc s).1.base.stuck_counter = s.base.stuck_counter := by
  intro w orc s
  unfold placeInBoxExecute
  dsimp only
  repeat' split
  all_goals simp [bumpTurn]

theorem pickupPlateFromBox_no_fingerprint :
    ∀ (w : World) (s : PickupPlateFromBoxState),
      (pickupPlateFromBoxExecute w s).1.base.last_state = s.base.last_state ∧
      (pickupPlateFromBoxExecute w s).1.base.stuck_counter = s.base.stuck_counter := by
  intro w s
  unfold pickupPlateFromBoxExecute
  dsimp only
  repeat' split
  all_goals simp [bumpTurn]

theorem submit_no_fingerprint :
    ∀ (w : World) (orc : Oracle) (s : SubmitOrderState),
      (submitOrderExecute w orc s).1.base.last_state = s.base.last_state ∧
      (submitOrderExecute w orc s).1.base.stuck_counter = s.base.stuck_counter := by
  intro w orc s
  unfold submitOrderExecute
  dsimp only
  repeat' split
  all_goals simp [bumpTurn]

/-- C6 fails on the code: a chop command that lost its held item reports
itself stuck with its tick counter and fingerprint counter far below any
ceiling (via its `failed` flag), and the cooking command records no
fingerprint at all during a tick. -/
theorem C6_counterexample :
    Cmd.isStuck (.chopIngredient chopAfterLost) = true ∧
    chopAfterLost.base.turn_count ≤ chopAfterLost.base.max_turns ∧
    chopAfterLost.base.stuck_counter ≤ 20 ∧
    (cookIngredientExecute wBare orc0 ⟨initBase 150, none, .navigating⟩).1.base.last_state
      = none ∧
    (cookIngredientExecute wBare orc0 ⟨initBase 150, none, .navigating⟩).1.base.turn_count
      = 1 := by
  decide

/-- C6 (amended): a Command reports itself stuck exactly when its tick
counter exceeds its per-kind ceiling, or its fingerprint has been unchanged
for more than 20 consecutive recorded ticks, or it has flagged itself
failed; only the buying, chopping, counter-placing, plate-pickup and
add-to-plate commands record a fingerprint on every tick that observes the
bot (position and holding-presence, plus the internal state tag for the
chop and add-to-plate kinds), every other kind -- the two cooking-pipeline
commands StartCooking/FinishCooking, the cook command itself, the box
commands and Submit -- records none, and the cooking command's ceiling
(150) strictly exceeds the buying commands' ceiling (30). -/
theorem C6_stuck_amended :
    (∀ c : Cmd, c.isStuck = true ↔
      (c.base.max_turns < c.base.turn_count ∨ 20 < c.base.stuck_counter ∨
        c.failedFlag = true)) ∧
    (∀ ft, (mkBuyIngredient ft).base.max_turns = 30) ∧
    mkCookIngredient.base.max_turns = 150 ∧
    (∀ ft, (mkBuyIngredient ft).base.max_turns < mkCookIngredient.base.max_turns) ∧
    (∀ (w : World) (s : BuyIngredientState) (bot : BotState), w.botState = some bot →
      (buyIngredientExecute w s).1.base.last_state =
        some (fpPosHolding bot.x bot.y bot.holding.isSome)) ∧
    (∀ (w : World) (orc : Oracle) (s : CookIngredientState),
      (cookIngredientExecute w orc s).1.base.last_state = s.base.last_state ∧
      (cookIngredientExecute w orc s).1.base.stuck_counter = s.base.stuck_counter) ∧
    (∀ (gc : GameConstants) (w : World) (s : BuyPlateState) (bot : BotState),
      w.botState = some bot →
      (buyPlateExecute gc w s).1.base.last_state =
        some (fpPosHolding bot.x bot.y bot.holding.isSome)) ∧
    (∀ (w : World) (orc : Oracle) (s : ChopIngredientState) (bot : BotState),
      w.botState = some bot →
      (chopIngredientExecute w orc s).1.base.last_state =
        some (s.state.str ++ "_" ++ toString bot.x ++ "_" ++ toString bot.y ++ "_" ++
          fpBool bot.holding.isSome)) ∧
    (∀ (w : World) (orc : Oracle) (s : PlaceOnCounterState) (bot : BotState),
      w.botState = some bot →
      (placeOnCounterExecute w orc s).1.base.last_state =
        some (fpPosHolding bot.x bot.y bot.holding.isSome)) ∧
    (∀ (w : World) (s : PickupPlateFromCounterState) (bot : BotState),
      w.botState = some bot →
      (pickupPlateFromCounterExecute w s).1.base.last_state =
        some (fpPosHolding bot.x bot.y bot.holding.isSome)) ∧
    (∀ (w : World) (orc : Oracle) (s : AddFoodToPlateState) (bot : BotState),
      w.botState = some bot →
      (addFoodToPlateExecute w orc s).1.base.last_state =
        some (s.state.str ++ "_" ++ toString bot.x ++ "_" ++ toString bot.y)) ∧
    (∀ (w : World) (orc : Oracle) (s : StartCookingState),
      (startCookingExecute w orc s).1.base.last_state = s.base.last_state ∧
      (startCookingExecute w orc s).1.base.stuck_counter = s.base.stuck_counter) ∧
    (∀ (w : World) (orc : Oracle) (s : FinishCookingState),
      (finishCookingExecute w orc s).1.base.last_state = s.base.last_state ∧
      (finishCookingExecute w orc s).1.base.stuck_counter = s.base.stuck_counter) ∧
    (∀ (w : World) (s : StoreInBoxState),
      (storeInBoxExecute w s).1.base.last_state = s.base.last_state ∧
      (storeInBoxExecute w s).1.base.stuck_counter = s.base.stuck_counter) ∧
    (∀ (w : World) (s : PickupFromBoxState),
      (pickupFromBoxExecute w s).1.base.last_state = s.base.last_state ∧
      (pickupFromBoxExecute w s).1.base.stuck_counter = s.base.stuck_counter) ∧
    (∀ (w : World) (orc : Oracle) (s : PlaceInBoxState),
      (placeInBoxExecute w orc s).1.base.last_state = s.base.last_state ∧
      (placeInBoxExecute w orc s).1.base.stuck_counter = s.base.stuck_counter) ∧
    (∀ (w : World) (s : PickupPlateFromBoxState),
      (pickupPlateFromBoxExecute w s).1.base.last_state = s.base.last_state ∧
      (pickupPlateFromBoxExecute w s).1.base.stuck_counter = s.base.stuck_counter) ∧
    (∀ (w : World) (orc : Oracle) (s : SubmitOrderState),
      (submitOrderExecute w orc s).1.base.last_state = s.base.last_state ∧
      (submitOrderExecute w orc s).1.base.stuck_counter = s.base.stuck_counter) := by
  refine ⟨?_, fun ft => rfl, rfl, fun ft => by show (30 : Nat) < 150; decide,
    buy_records_fingerprint, cook_no_fingerprint, buyPlate_records_fingerprint,
    chop_records_fingerprint, placeOnCounter_records_fingerprint,
    pickupPlateFromCounter_records_fingerprint, addFood_records_fingerprint,
    startCooking_no_fingerprint, finishCooking_no_fingerprint,
    storeInBox_no_fingerprint, pickupFromBox_no_fingerprint,
    placeInBox_no_fingerprint, pickupPlateFromBox_no_fingerprint,
    submit_no_fingerprint⟩
  intro c
  simp [Cmd.isStuck, Bool.or_eq_true, decide_eq_true_eq, or_assoc]

/-- Witness for the amended C6: a buy command at a concrete observation
records the fingerprint of position and empty hands. -/
theorem C6_stuck_amended_witness :
    (buyIngredientExecute wBare ⟨initBase 30, meat, none, false⟩).1.base.last_state =
      some (fpPosHolding 0 0 false) :=
  C6_stuck_amended.2.2.2.2.1 wBare ⟨initBase 30, meat, none, false⟩ ⟨0, 0, none⟩ rfl

theorem fc_pickup_only_stage1 :
    ∀ (w : World) (orc : Oracle) (s : FinishCookingState) (x y : Int),
      (finishCookingExecute w orc s).2 = some (Action.take_from_pan x y) →
        s.state = FinishCookPhase.picking_up ∧ s.cooker_loc = some (x, y) ∧
        ∃ f, (w.map.tileAt x y).item = some (Item.pan (some f)) ∧ f.cooked_stage = 1 := by
  intro w orc s x y h
  obtain ⟨b, ft, cl, st, fb⟩ := s
  cases hb : w.botState <;> cases st <;>
    simp only [finishCookingExecute, hb, bumpTurn] at h <;>
    revert h <;>
    (repeat' split) <;>
    simp_all <;>
    (try (intro h1 h2; subst h1; subst h2; simp_all))

theorem fc_waiting_burn :
    ∀ (w : World) (orc : Oracle) (s : FinishCookingState) (bot : BotState)
      (cl : Pos) (f : Food),
      w.botState = some bot → s.state = FinishCookPhase.waiting →
      (match s.cooker_loc with
       | some l => some l
       | none => findCookerWithFood w.map s.food_type) = some cl →
      (w.map.tileAt cl.1 cl.2).item = some (Item.pan (some f)) →
      2 ≤ f.cooked_stage →
      (finishCookingExecute w orc s).1.state = FinishCookPhase.done ∧
      (finishCookingExecute w orc s).1.food_burned = true ∧
      (finishCookingExecute w orc s).2 = none := by
  intro w orc s bot cl f hb hs hcl htile hstage
  obtain ⟨b, ft, cloc, st, fb⟩ := s
  simp only at hs
  subst hs
  simp only at hcl
  simp only [finishCookingExecute, hb, bumpTurn, hcl, htile]
  have h1 : ¬ f.cooked_stage = 1 := by omega
  simp [h1, hstage]

theorem fc_pickup_burn :
    ∀ (w : World) (orc : Oracle) (s : FinishCookingState) (bot : BotState)
      (cl : Pos) (f : Food),
      w.botState = some bot → s.state = FinishCookPhase.picking_up →
      s.cooker_loc = some cl →
      (w.map.tileAt cl.1 cl.2).item = some (Item.pan (some f)) →
      2 ≤ f.cooked_stage →
      (finishCookingExecute w orc s).1.state = FinishCookPhase.done ∧
      (finishCookingExecute w orc s).1.food_burned = true ∧
      (finishCookingExecute w orc s).2 = none := by
  intro w orc s bot cl f hb hs hcl htile hstage
  obtain ⟨b, ft, cloc, st, fb⟩ := s
  simp only at hs hcl
  subst hs
  subst hcl
  simp only [finishCookingExecute, hb, bumpTurn, htile]
  have h1 : ¬ f.cooked_stage = 1 := by omega
  simp [h1]

theorem fc_done_absorbing :
    ∀ (w : World) (orc : Oracle) (s : FinishCookingState),
      s.state = FinishCookPhase.done →
      finishCookingExecute w orc s = ({ s with base := bumpTurn s.base }, none) := by
  intro w orc s hs
  obtain ⟨b, ft, cloc, st, fb⟩ := s
  simp only at hs
  subst hs
  cases hb : w.botState <;> simp [finishCookingExecute, hb, bumpTurn]

/-- C5: the cook-finishing command issues `take_from_pan` only when the
observed pan food has `cooked_stage` exactly 1; whenever it observes stage
at least 2 (while waiting or about to pick up) it marks the food burnt and
enters its terminal `done` state with no action; the terminal state is
absorbing (no further action, hence no pickup and no retry), and with the
food marked burnt the command reports complete so the plan moves past it. -/
theorem C5_finish_cooking :
    (∀ (w : World) (orc : Oracle) (s : FinishCookingState) (x y : Int),
      (finishCookingExecute w orc s).2 = some (Action.take_from_pan x y) →
        s.state = FinishCookPhase.picking_up ∧ s.cooker_loc = some (x, y) ∧
        ∃ f, (w.map.tileAt x y).item = some (Item.pan (some f)) ∧ f.cooked_stage = 1) ∧
    (∀ (w : World) (orc : Oracle) (s : FinishCookingState) (bot : BotState)
        (cl : Pos) (f : Food),
      w.botState = some bot → s.state = FinishCookPhase.waiting →
      (match s.cooker_loc with
       | some l => some l
       | none => findCookerWithFood w.map s.food_type) = some cl →
      (w.map.tileAt cl.1 cl.2).item = some (Item.pan (some f)) →
      2 ≤ f.cooked_stage →
      (finishCookingExecute w orc s).1.state = FinishCookPhase.done ∧
      (finishCookingExecute w orc s).1.food_burned = true ∧
      (finishCookingExecute w orc s).2 = none) ∧
    (∀ (w : World) (orc : Oracle) (s : FinishCookingState) (bot : BotState)
        (cl : Pos) (f : Food),
      w.botState = some bot → s.state = FinishCookPhase.picking_up →
      s.cooker_loc = some cl →
      (w.map.tileAt cl.1 cl.2).item = some (Item.pan (some f)) →
      2 ≤ f.cooked_stage →
      (finishCookingExecute w orc s).1.state = FinishCookPhase.done ∧
      (finishCookingExecute w orc s).1.food_burned = true ∧
      (finishCookingExecute w orc s).2 = none) ∧
    (∀ (w : World) (orc : Oracle) (s : FinishCookingState),
      s.state = FinishCookPhase.done →
      finishCookingExecute w orc s = ({ s with base := bumpTurn s.base }, none)) ∧
    (∀ (s : FinishCookingState) (bot : Option BotState),
      s.state = FinishCookPhase.done → s.food_burned = true →
      Cmd.isComplete (.finishCooking s) bot = true) :=
  ⟨fc_pickup_only_stage1, fc_waiting_burn, fc_pickup_burn, fc_done_absorbing,
   fun s bot hs hb => by simp [Cmd.isComplete, hs, hb]⟩

/-- Witness for C5 at concrete inputs: the stage-1 pan pickup emits
`take_from_pan` from the `picking_up` state, the burnt pan observed while
waiting aborts to the burnt terminal state, the terminal state is inert,
and the burnt command reports complete. -/
theorem C5_finish_cooking_witness :
    (fcPick.state = FinishCookPhase.picking_up ∧ fcPick.cooker_loc = some (0, 0) ∧
      ∃ f, (wPan1.map.tileAt 0 0).item = some (Item.pan (some f)) ∧ f.cooked_stage = 1) ∧
    ((finishCookingExecute wPan2 orc0 fcWait).1.state = FinishCookPhase.done ∧
      (finishCookingExecute wPan2 orc0 fcWait).1.food_burned = true ∧
      (finishCookingExecute wPan2 orc0 fcWait).2 = none) ∧
    finishCookingExecute wPan1 orc0 fcDone
      = ({ fcDone with base := bumpTurn fcDone.base }, none) ∧
    Cmd.isComplete (.finishCooking fcDone) none = true :=
  ⟨C5_finish_cooking.1 wPan1 orc0 fcPick 0 0 (by decide),
   C5_finish_cooking.2.1 wPan2 orc0 fcWait ⟨0, 0, none⟩ (0, 0) ⟨"MEAT", false, 2⟩
     rfl rfl (by decide) (by decide) (by decide),
   C5_finish_cooking.2.2.2.1 wPan1 orc0 fcDone rfl,
   C5_finish_cooking.2.2.2.2 fcDone none rfl rfl⟩

theorem stableInsert_mem {α : Type} (sb : α → α → Bool) (x a : α) :
    ∀ l : List α, a ∈ stableInsert sb x l ↔ a = x ∨ a ∈ l := by
  intro l
  induction l with
  | nil => simp [stableInsert]
  | cons b bs ih =>
    simp only [stableInsert]
    split
    all_goals simp only [List.mem_cons, ih]
    all_goals try tauto

theorem stableSort_mem {α : Type} (sb : α → α → Bool) (a : α) :
    ∀ l : List α, a ∈ stableSort sb l ↔ a ∈ l := by
  intro l
  induction l with
  | nil => simp [stableSort]
  | cons x xs ih =>
    simp only [stableSort, stableInsert_mem, ih, List.mem_cons]

theorem orderCandidate_spec {gc : GameConstants} {initMap : GameMap} {w : World}
    {botPos : Pos} {turn : Nat} {o : Order} {c : Candidate}
    (h : orderCandidate gc initMap w botPos turn o = some c) :
    c.order = o ∧ c.remaining_turns = remainingTurns o turn ∧
    c.estimated_turns = estimatedTurns gc o ∧
    c.total_value = o.reward + o.penalty ∧
    c.cost = ingredientCost gc o ∧
    c.profit = c.total_value - c.cost ∧
    c.cost < c.total_value := by
  unfold orderCandidate at h
  dsimp only at h
  split_ifs at h
  all_goals first
    | exact Option.noConfusion h
    | (obtain rfl := Option.some_inj.mp h
       refine ⟨rfl, rfl, rfl, rfl, rfl, rfl, ?_⟩
       dsimp only
       omega)

theorem collectCandidates_spec {gc : GameConstants} {initMap : GameMap} {w : World}
    {botPos : Pos} {turn : Nat} :
    ∀ (orders : List Order) (processed : List Nat) (c : Candidate),
      c ∈ (collectCandidates gc initMap w botPos turn orders processed).1 →
      c.order ∈ orders ∧ c.order.is_active = true ∧
      c.order.order_id ∉ processed ∧
      orderCandidate gc initMap w botPos turn c.order = some c := by
  intro orders
  induction orders with
  | nil =>
    intro processed c hc
    simp [collectCandidates] at hc
  | cons o os ih =>
    intro processed c hc
    by_cases hact : (o.is_active && !(decide (o.order_id ∈ processed))) = true
    · rw [collectCandidates, if_pos hact] at hc
      cases hoc : orderCandidate gc initMap w botPos turn o with
      | some c₀ =>
        rw [hoc] at hc
        simp only [List.mem_cons] at hc
        rcases hc with rfl | hc
        · have hspec := orderCandidate_spec hoc
          simp only [Bool.and_eq_true, Bool.not_eq_true', decide_eq_false_iff_not] at hact
          exact ⟨by rw [hspec.1]; exact List.mem_cons_self _ _,
            by rw [hspec.1]; exact hact.1, by rw [hspec.1]; exact hact.2,
            by rw [hspec.1]; exact hoc⟩
        · obtain ⟨m1, m2, m3, m4⟩ := ih processed c hc
          exact ⟨List.mem_cons_of_mem _ m1, m2, m3, m4⟩
      | none =>
        rw [hoc] at hc
        obtain ⟨m1, m2, m3, m4⟩ := ih (addProcessed processed o.order_id) c hc
        refine ⟨List.mem_cons_of_mem _ m1, m2, ?_, m4⟩
        intro hmem
        exact m3 (by
          unfold addProcessed
          split
          · exact hmem
          · exact List.mem_append.mpr (Or.inl hmem))
    · rw [collectCandidates, if_neg hact] at hc
      obtain ⟨m1, m2, m3, m4⟩ := ih processed c hc
      exact ⟨List.mem_cons_of_mem _ m1, m2, m3, m4⟩

/-- C2: every order the selector picks satisfies the deadline-safety check
with the buffer multiplier in force at that tick, and its full ingredient
cost (plate included) is strictly below reward plus penalty; the candidate's
metrics are exactly the selector's formulas evaluated on the picked order,
which is one of the reported orders. -/
theorem C2_order_selector :
    ∀ (gc : GameConstants) (initMap : GameMap) (w : World) (botPos : Pos)
      (processed processed' : List Nat) (c : Candidate),
      selectOrder gc initMap w botPos processed = (some c, processed') →
      remGeBuffer c.remaining_turns c.estimated_turns w.turn = true ∧
      c.cost < c.total_value ∧
      c.order ∈ w.orders ∧ c.order.is_active = true ∧
      c.remaining_turns = remainingTurns c.order w.turn ∧
      c.estimated_turns = estimatedTurns gc c.order ∧
      c.total_value = c.order.reward + c.order.penalty ∧
      c.cost = ingredientCost gc c.order := by
  intro gc initMap w botPos processed processed' c h
  unfold selectOrder at h
  dsimp only at h
  split_ifs at h with hemp
  · exact absurd (congrArg Prod.fst h) (by simp)
  · have hbest : chooseBest w.turn
        (collectCandidates gc initMap w botPos w.turn w.orders processed).1 = some c := by
      have := congrArg Prod.fst h
      simpa using this
    unfold chooseBest at hbest
    have hmemsort := List.mem_of_find?_eq_some hbest
    have hpred := List.find?_some hbest
    unfold sortCandidates at hmemsort
    have hmem : c ∈ (collectCandidates gc initMap w botPos w.turn w.orders processed).1 := by
      by_cases hl : lateGame w.turn = true
      · rw [if_pos hl] at hmemsort
        exact (stableSort_mem _ _ _).mp hmemsort
      · rw [if_neg hl] at hmemsort
        exact (stableSort_mem _ _ _).mp hmemsort
    obtain ⟨m1, m2, m3, m4⟩ := collectCandidates_spec w.orders processed c hmem
    obtain ⟨s1, s2, s3, s4, s5, s6, s7⟩ := orderCandidate_spec m4
    exact ⟨hpred, by rw [s5, s4] at s7 ⊢; exact s7, s1 ▸ m1, s1 ▸ m2,
      s1 ▸ s2, s1 ▸ s3, s1 ▸ s4, s1 ▸ s5⟩

/-- Witness for C2: on the concrete one-order world the selector picks
`orderSel`, whose metrics satisfy the deadline and profitability checks. -/
theorem C2_order_selector_witness :
    remGeBuffer candSel.remaining_turns candSel.estimated_turns wSel.turn = true ∧
    candSel.cost < candSel.total_value ∧
    candSel.order ∈ wSel.orders ∧ candSel.order.is_active = true ∧
    candSel.remaining_turns = remainingTurns candSel.order wSel.turn ∧
    candSel.estimated_turns = estimatedTurns gcTest candSel.order ∧
    candSel.total_value = candSel.order.reward + candSel.order.penalty ∧
    candSel.cost = ingredientCost gcTest candSel.order :=
  C2_order_selector gcTest mapC1 wSel (0, 0) [] [] candSel (by decide)

theorem addProcessed_mem (l : List Nat) (n m : Nat) (h : m ∈ l) :
    m ∈ addProcessed l n := by
  unfold addProcessed
  split
  · exact h
  · exact List.mem_append.mpr (Or.inl h)

theorem addProcessed_self (l : List Nat) (n : Nat) : n ∈ addProcessed l n := by
  unfold addProcessed
  split
  · assumption
  · exact List.mem_append.mpr (Or.inr (List.mem_singleton.mpr rfl))

theorem collectCandidates_processed_mem {gc : GameConstants} {initMap : GameMap}
    {w : World} {botPos : Pos} {turn : Nat} {m : Nat} :
    ∀ (orders : List Order) (processed : List Nat), m ∈ processed →
      m ∈ (collectCandidates gc initMap w botPos turn orders processed).2 := by
  intro orders
  induction orders with
  | nil =>
    intro processed h
    simpa [collectCandidates] using h
  | cons o os ih =>
    intro processed h
    rw [collectCandidates]
    split
    · cases hoc : orderCandidate gc initMap w botPos turn o with
      | some c =>
        dsimp only
        exact ih processed h
      | none => exact ih _ (addProcessed_mem _ _ _ h)
    · exact ih processed h

theorem selectOrder_processed_mem {gc : GameConstants} {initMap : GameMap} {w : World}
    {botPos : Pos} {processed : List Nat} {m : Nat} (h : m ∈ processed) :
    m ∈ (selectOrder gc initMap w botPos processed).2 := by
  unfold selectOrder
  dsimp only
  split
  · exact collectCandidates_processed_mem _ _ h
  · exact collectCandidates_processed_mem _ _ h

theorem selectOrder_fst_some {gc : GameConstants} {initMap : GameMap} {w : World}
    {botPos : Pos} {processed : List Nat} {c : Candidate}
    (h : (selectOrder gc initMap w botPos processed).1 = some c) :
    c.order.order_id ∉ processed := by
  unfold selectOrder at h
  dsimp only at h
  split_ifs at h
  dsimp only at h
  unfold chooseBest at h
  have hmemsort := List.mem_of_find?_eq_some h
  unfold sortCandidates at hmemsort
  have hmem : c ∈ (collectCandidates gc initMap w botPos w.turn w.orders processed).1 := by
    by_cases hl : lateGame w.turn = true
    · rw [if_pos hl] at hmemsort
      exact (stableSort_mem _ _ _).mp hmemsort
    · rw [if_neg hl] at hmemsort
      exact (stableSort_mem _ _ _).mp hmemsort
  exact (collectCandidates_spec w.orders processed c hmem).2.2.1

theorem trashRouteCleanup_cases (s : PState) (w : World) (bx byy : Int) :
    (trashRouteCleanup s w bx byy).1 = s ∨
    (trashRouteCleanup s w bx byy).1 = { s with cleaning_workspace := false } := by
  unfold trashRouteCleanup
  repeat' split
  all_goals simp

theorem cleanupTick_cases (s : PState) (w : World) :
    if s.cleanup_turns + 1 > s.max_cleanup_turns then
      (cleanupTick s w).1 = { s with cleaning_workspace := false, cleanup_turns := 0 }
    else
      (cleanupTick s w).1 = { s with cleanup_turns := s.cleanup_turns + 1 } ∨
      (cleanupTick s w).1 = { s with cleanup_turns := s.cleanup_turns + 1,
                                     cleaning_workspace := false } := by
  unfold cleanupTick
  dsimp only
  split_ifs with h
  · rfl
  · repeat' split
    all_goals first
      | (left; rfl)
      | (right; rfl)
      | (rcases trashRouteCleanup_cases { s with cleanup_turns := s.cleanup_turns + 1 } w
            _ _ with h2 | h2 <;> rw [h2] <;> simp)

theorem cleanupTick_frame (s : PState) (w : World) :
    (cleanupTick s w).1.processed_orders = s.processed_orders ∧
    (cleanupTick s w).1.current_order_id = s.current_order_id ∧
    (cleanupTick s w).1.max_cleanup_turns = s.max_cleanup_turns := by
  have h := cleanupTick_cases s w
  split_ifs at h
  · rw [h]
    exact ⟨rfl, rfl, rfl⟩
  · rcases h with h | h <;> rw [h] <;> exact ⟨rfl, rfl, rfl⟩

theorem disposalTick_state (s : PState) (w : World) (bot : BotState) :
    (disposalTick s w bot).1 = s := by
  unfold disposalTick
  dsimp only
  repeat' split
  all_goals rfl

theorem execPhase_blocked (gc : GameConstants) (s : PState) (w : World) (orc : Oracle)
    (oid : Nat) (h1 : oid ∈ s.processed_orders) (h2 : s.current_order_id ≠ some oid) :
    oid ∈ (execPhase gc s w orc).1.processed_orders ∧
    (execPhase gc s w orc).1.current_order_id ≠ some oid := by
  unfold execPhase
  dsimp only
  repeat' split
  all_goals first
    | exact ⟨h1, h2⟩
    | (refine ⟨h1, ?_⟩; simp)
    | (refine ⟨addProcessed_mem _ _ _ h1, ?_⟩; simp)

theorem selectionPhase_blocked (gc : GameConstants) (s : PState) (w : World)
    (orc : Oracle) (botPos : Pos) (oid : Nat)
    (h1 : oid ∈ s.processed_orders) (h2 : s.current_order_id ≠ some oid) :
    oid ∈ (selectionPhase gc s w orc botPos).1.processed_orders ∧
    (selectionPhase gc s w orc botPos).1.current_order_id ≠ some oid := by
  unfold selectionPhase
  dsimp only
  cases hsel : (selectOrder gc s.initMap w botPos s.processed_orders).1 with
  | none =>
    exact ⟨selectOrder_processed_mem h1, h2⟩
  | some c =>
    dsimp only
    have hid : c.order.order_id ∉ s.processed_orders := selectOrder_fst_some hsel
    have hne : (some c.order.order_id : Option Nat) ≠ some oid := by
      intro heq
      exact hid (Option.some_inj.mp heq ▸ h1)
    split
    · exact ⟨selectOrder_processed_mem h1, hne⟩
    · exact execPhase_blocked _ _ _ _ _ (selectOrder_processed_mem h1) hne

theorem stepMain_blocked (gc : GameConstants) (s : PState) (w : World) (orc : Oracle)
    (oid : Nat) (h1 : oid ∈ s.processed_orders) (h2 : s.current_order_id ≠ some oid) :
    oid ∈ (stepMain gc s w orc).1.processed_orders ∧
    (stepMain gc s w orc).1.current_order_id ≠ some oid := by
  unfold stepMain
  split
  · split
    · exact ⟨h1, h2⟩
    · split
      · rw [disposalTick_state]
        exact ⟨h1, h2⟩
      · exact selectionPhase_blocked _ _ _ _ _ _ h1 h2
  · exact execPhase_blocked _ _ _ _ _ h1 h2

theorem playTurn_blocked (gc : GameConstants) (s : PState) (w : World) (orc : Oracle)
    (oid : Nat) (h1 : oid ∈ s.processed_orders) (h2 : s.current_order_id ≠ some oid) :
    oid ∈ (playTurn gc s w orc).1.processed_orders ∧
    (playTurn gc s w orc).1.current_order_id ≠ some oid := by
  unfold playTurn
  split
  · exact ⟨h1, h2⟩
  · dsimp only
    cases hcur : s.current_order_id with
    | none =>
      dsimp only
      split
      · obtain ⟨f1, f2, _⟩ := cleanupTick_frame s w
        refine ⟨?_, ?_⟩
        · rw [f1]; exact h1
        · rw [f2]; exact h2
      · exact stepMain_blocked _ _ _ _ _ h1 h2
    | some o =>
      dsimp only
      split
      · split
        · obtain ⟨f1, f2, _⟩ := cleanupTick_frame s w
          refine ⟨?_, ?_⟩
          · rw [f1]; exact h1
          · rw [f2]; exact h2
        · exact stepMain_blocked _ _ _ _ _ h1 h2
      · split
        · obtain ⟨f1, f2, _⟩ :=
            cleanupTick_frame { s with processed_orders := addProcessed s.processed_orders o,
                                       command_queue := [], current_command_index := 0,
                                       current_order_id := none, cleaning_workspace := true,
                                       cleanup_turns := 0 } w
          refine ⟨?_, ?_⟩
          · rw [f1]; exact addProcessed_mem _ _ _ h1
          · rw [f2]; simp
        · refine stepMain_blocked _ _ _ _ _ (addProcessed_mem _ _ _ h1) (by simp)

theorem runBot_blocked (gc : GameConstants) (oid : Nat) :
    ∀ (run : List (World × Oracle)) (s : PState),
      oid ∈ s.processed_orders → s.current_order_id ≠ some oid →
      oid ∈ (runBot gc s run).processed_orders ∧
      (runBot gc s run).current_order_id ≠ some oid := by
  intro run
  induction run with
  | nil =>
    intro s h1 h2
    exact ⟨h1, h2⟩
  | cons p rest ih =>
    intro s h1 h2
    obtain ⟨w, orc⟩ := p
    obtain ⟨g1, g2⟩ := playTurn_blocked gc s w orc oid h1 h2
    exact ih _ g1 g2

theorem playTurn_cleaning (gc : GameConstants) (s : PState) (w : World) (orc : Oracle)
    (hb : w.bots.isEmpty = false) (hcur : s.current_order_id = none)
    (hclean : s.cleaning_workspace = true) :
    playTurn gc s w orc = cleanupTick s w := by
  unfold playTurn
  rw [hb, hcur]
  simp [hclean]

theorem cleanup_exit_bound (gc : GameConstants) :
    ∀ (n : Nat) (s : PState) (run : List (World × Oracle)),
      s.cleaning_workspace = true → s.current_order_id = none →
      s.max_cleanup_turns = 20 → 1 ≤ n → 21 ≤ s.cleanup_turns + n →
      n ≤ run.length → (∀ p ∈ run, p.1.bots.isEmpty = false) →
      ∃ k, k ≤ n ∧ (runBot gc s (List.take k run)).cleaning_workspace = false := by
  intro n
  induction n with
  | zero =>
    intro s run _ _ _ h4 _ _ _
    omega
  | succ n ih =>
    intro s run h1 h2 h3 _ h5 h6 h7
    cases run with
    | nil => simp at h6
    | cons p rest =>
      obtain ⟨w, orc⟩ := p
      have hbw : w.bots.isEmpty = false := h7 (w, orc) (List.mem_cons_self _ _)
      have hpt : playTurn gc s w orc = cleanupTick s w :=
        playTurn_cleaning gc s w orc hbw h2 h1
      have hc := cleanupTick_cases s w
      by_cases htmo : s.cleanup_turns + 1 > s.max_cleanup_turns
      · rw [if_pos htmo] at hc
        refine ⟨1, by omega, ?_⟩
        show (playTurn gc s w orc).1.cleaning_workspace = false
        rw [hpt, hc]
      · rw [if_neg htmo] at hc
        rcases hc with hc | hc
        · have h1' : (cleanupTick s w).1.cleaning_workspace = true := by
            rw [hc]; exact h1
          have h2' : (cleanupTick s w).1.current_order_id = none := by
            rw [hc]; exact h2
          have h3' : (cleanupTick s w).1.max_cleanup_turns = 20 := by
            rw [hc]; exact h3
          have hct : (cleanupTick s w).1.cleanup_turns = s.cleanup_turns + 1 := by
            rw [hc]
          have hn1 : 1 ≤ n := by
            rw [h3] at htmo
            omega
          obtain ⟨k, hk, hkc⟩ := ih (cleanupTick s w).1 rest h1' h2' h3' hn1
            (by rw [hct]; omega)
            (by simp only [List.length_cons] at h6; omega)
            (fun q hq => h7 q (List.mem_cons_of_mem _ hq))
          refine ⟨k + 1, by omega, ?_⟩
          show (runBot gc (playTurn gc s w orc).1 (List.take k rest)).cleaning_workspace = false
          rw [hpt]
          exact hkc
        · refine ⟨1, by omega, ?_⟩
          show (playTurn gc s w orc).1.cleaning_workspace = false
          rw [hpt, hc]

/-- C7: when the bound order is no longer reported active, `play_turn` adds
its id to the processed set, discards the whole command queue, unbinds the
order and enters cleanup mode before stepping any command (the tick is a
cleanup tick of the aborted state); and on every later tick of any
continuation the expired id stays processed and is never selected again. -/
theorem C7_expiry_abort (gc : GameConstants) (s : PState) (w : World) (orc : Oracle)
    (oid : Nat) (hb : w.bots.isEmpty = false) (hcur : s.current_order_id = some oid)
    (hexp : w.orders.any (fun o => decide (o.order_id = oid) && o.is_active) = false) :
    playTurn gc s w orc =
      cleanupTick { s with processed_orders := addProcessed s.processed_orders oid,
                           command_queue := [], current_command_index := 0,
                           current_order_id := none, cleaning_workspace := true,
                           cleanup_turns := 0 } w ∧
    ∀ run : List (World × Oracle),
      oid ∈ (runBot gc (playTurn gc s w orc).1 run).processed_orders ∧
      (runBot gc (playTurn gc s w orc).1 run).current_order_id ≠ some oid := by
  have habort : playTurn gc s w orc =
      cleanupTick { s with processed_orders := addProcessed s.processed_orders oid,
                           command_queue := [], current_command_index := 0,
                           current_order_id := none, cleaning_workspace := true,
                           cleanup_turns := 0 } w := by
    unfold playTurn
    rw [hb, hcur]
    simp [hexp]
  refine ⟨habort, ?_⟩
  intro run
  obtain ⟨f1, f2, _⟩ :=
    cleanupTick_frame { s with processed_orders := addProcessed s.processed_orders oid,
                               command_queue := [], current_command_index := 0,
                               current_order_id := none, cleaning_workspace := true,
                               cleanup_turns := 0 } w
  refine runBot_blocked gc oid run _ ?_ ?_
  · rw [habort, f1]
    exact addProcessed_self _ _
  · rw [habort, f2]
    simp

/-- Witness for C7: bound to order 5 while the board reports no orders, the
bot aborts into a cleanup tick of the cleared state, and order 5 remains
processed and never re-selected on any continuation. -/
theorem C7_expiry_abort_witness :
    wC7.bots.isEmpty = false ∧ sC7.current_order_id = some 5 ∧
    wC7.orders.any (fun o => decide (o.order_id = 5) && o.is_active) = false ∧
    (playTurn gcTest sC7 wC7 orc0 =
       cleanupTick { sC7 with processed_orders := addProcessed sC7.processed_orders 5,
                              command_queue := [], current_command_index := 0,
                              current_order_id := none, cleaning_workspace := true,
                              cleanup_turns := 0 } wC7 ∧
     ∀ run : List (World × Oracle),
       5 ∈ (runBot gcTest (playTurn gcTest sC7 wC7 orc0).1 run).processed_orders ∧
       (runBot gcTest (playTurn gcTest sC7 wC7 orc0).1 run).current_order_id ≠ some 5) :=
  ⟨rfl, rfl, rfl, C7_expiry_abort gcTest sC7 wC7 orc0 5 rfl rfl rfl⟩

/-- C10: in cleanup mode the counter advances by exactly one per tick while
at most 20, the tick after it reaches 20 exits cleanup and resets the
counter to 0, and from a fresh entry, whatever is held or left on stations,
cleanup mode is left within 21 ticks on every run of observations. -/
theorem C10_cleanup_bound (gc : GameConstants) (s : PState) (w : World) (orc : Oracle)
    (hclean : s.cleaning_workspace = true) (hcur : s.current_order_id = none)
    (hmax : s.max_cleanup_turns = 20) (hb : w.bots.isEmpty = false) :
    ((s.cleanup_turns < 20 →
        (playTurn gc s w orc).1.cleanup_turns = s.cleanup_turns + 1) ∧
     (20 ≤ s.cleanup_turns →
        (playTurn gc s w orc).1.cleaning_workspace = false ∧
        (playTurn gc s w orc).1.cleanup_turns = 0)) ∧
    (s.cleanup_turns = 0 →
      ∀ run : List (World × Oracle),
        (∀ p ∈ run, p.1.bots.isEmpty = false) → 21 ≤ run.length →
        ∃ k, k ≤ 21 ∧ (runBot gc s (List.take k run)).cleaning_workspace = false) := by
  have hpt := playTurn_cleaning gc s w orc hb hcur hclean
  have hc := cleanupTick_cases s w
  refine ⟨⟨?_, ?_⟩, ?_⟩
  · intro hlt
    rw [if_neg (by omega)] at hc
    rcases hc with hc | hc <;> rw [hpt, hc]
  · intro hge
    rw [if_pos (by omega)] at hc
    rw [hpt, hc]
    exact ⟨rfl, rfl⟩
  · intro h0 run hbots hlen
    exact cleanup_exit_bound gc 21 s run hclean hcur hmax (by omega) (by omega)
      (by omega) hbots

/-- Witness for C10: from a fresh cleanup entry in the concrete world the
counter advances from 0 to 1, the timeout branch is available at 20, and
every 21-tick run leaves cleanup mode within 21 ticks. -/
theorem C10_cleanup_bound_witness :
    sClean.cleaning_workspace = true ∧ sClean.current_order_id = none ∧
    sClean.max_cleanup_turns = 20 ∧ wC7.bots.isEmpty = false ∧
    (((sClean.cleanup_turns < 20 →
         (playTurn gcTest sClean wC7 orc0).1.cleanup_turns = sClean.cleanup_turns + 1) ∧
      (20 ≤ sClean.cleanup_turns →
         (playTurn gcTest sClean wC7 orc0).1.cleaning_workspace = false ∧
         (playTurn gcTest sClean wC7 orc0).1.cleanup_turns = 0)) ∧
     (sClean.cleanup_turns = 0 →
       ∀ run : List (World × Oracle),
         (∀ p ∈ run, p.1.bots.isEmpty = false) → 21 ≤ run.length →
         ∃ k, k ≤ 21 ∧ (runBot gcTest sClean (List.take k run)).cleaning_workspace = false)) :=
  ⟨rfl, rfl, rfl, rfl, C10_cleanup_bound gcTest sClean wC7 orc0 rfl rfl rfl rfl⟩

end CommandBot
